import Mathlib

/-!
Verification of the extraction-and-confidence pipeline of the
client-automation-platform repository, shallowly embedded in Lean 4.

Conventions of the embedding:
* Python floats are modelled as exact rationals.  The builtin
  round-function of Python (round to a number of decimal places,
  ties to even) is modelled by roundq below.
* Python dicts with string keys are modelled as association lists;
  lookup returns the first binding, assignment replaces in place.
* Fallible operations (Python code that raises) return Except or
  Option values; a raised exception leaves the modelled state
  unchanged, which mirrors the store semantics of the source.
-/

/- ------------------------------------------------------------------
Preliminaries: Python round / clamp, dict values, association lists
------------------------------------------------------------------ -/

/-- Round a rational to the nearest integer, ties to even.  This is
the rounding mode of the Python builtin round. -/
def roundHalfEven (x : ℚ) : ℤ :=
  let n : ℤ := ⌊x⌋
  let r : ℚ := x - n
  if r < 1/2 then n
  else if 1/2 < r then n + 1
  else if n % 2 = 0 then n else n + 1

/-- Model of the Python builtin round(x, p): round to p decimal
places, ties to even. -/
def roundq (p : ℕ) (x : ℚ) : ℚ := (roundHalfEven (x * 10 ^ p) : ℚ) / 10 ^ p

/-- max(0.0, min(1.0, x)), the confidence clamp of the source. -/
def clamp01 (x : ℚ) : ℚ := max 0 (min 1 x)

/-- Values of the Python dicts moved around by the pipeline. -/
inductive PyVal : Type where
  | vNone : PyVal
  | vStr (s : String) : PyVal
  | vNum (q : ℚ) : PyVal
  | vBool (b : Bool) : PyVal
deriving DecidableEq, Repr

/-- A Python dict with string keys, as an association list. -/
abbrev Json : Type := List (String × PyVal)

/-- Lookup of a key in an association list (dict access). -/
def alookup {α : Type} (k : String) : List (String × α) → Option α
  | [] => none
  | (k2, v) :: rest => if k = k2 then some v else alookup k rest

/-- Dict assignment d[k] = v: replace the binding in place, append
if the key is fresh. -/
def aset {α : Type} (k : String) (v : α) : List (String × α) → List (String × α)
  | [] => [(k, v)]
  | (k2, v2) :: rest => if k = k2 then (k, v) :: rest else (k2, v2) :: aset k v rest

/-- Remove every binding of a key (dict/store deletion). -/
def aerase {α : Type} (k : String) : List (String × α) → List (String × α)
  | [] => []
  | (k2, v2) :: rest => if k2 = k then aerase k rest else (k2, v2) :: aerase k rest

theorem alookup_aset_self {α : Type} (k : String) (v : α) (l : List (String × α)) :
    alookup k (aset k v l) = some v := by
  induction l with
  | nil => simp [aset, alookup]
  | cons hd tl ih =>
    obtain ⟨k2, v2⟩ := hd
    by_cases h : k = k2 <;> simp [aset, alookup, h, ih]

theorem alookup_aset_ne {α : Type} {k k2 : String} (h : k ≠ k2) (v : α)
    (l : List (String × α)) : alookup k (aset k2 v l) = alookup k l := by
  induction l with
  | nil => simp [aset, alookup, h]
  | cons hd tl ih =>
    obtain ⟨k3, v3⟩ := hd
    by_cases h2 : k2 = k3
    · subst h2; simp [aset, alookup, h]
    · by_cases h3 : k = k3 <;> simp [aset, alookup, h2, h3, ih]

theorem alookup_aerase_self {α : Type} (k : String) (l : List (String × α)) :
    alookup k (aerase k l) = none := by
  induction l with
  | nil => simp [aerase, alookup]
  | cons hd tl ih =>
    obtain ⟨k2, v2⟩ := hd
    by_cases h : k2 = k
    · simp [aerase, h, ih]
    · simp [aerase, alookup, h, Ne.symm h, ih]

theorem alookup_aerase_ne {α : Type} {k k2 : String} (h : k ≠ k2)
    (l : List (String × α)) : alookup k (aerase k2 l) = alookup k l := by
  induction l with
  | nil => simp [aerase, alookup]
  | cons hd tl ih =>
    obtain ⟨k3, v3⟩ := hd
    by_cases h2 : k3 = k2
    · subst h2; simp [aerase, alookup, h, ih]
    · by_cases h3 : k = k3 <;> simp [aerase, alookup, h2, h3, ih]

/- ------------------------------------------------------------------
Data model (src/backend/app/models/extraction.py)
------------------------------------------------------------------ -/

/-- RecordType enum. -/
inductive RecordType : Type where
  | FORM : RecordType
  | EMAIL : RecordType
  | INVOICE : RecordType
deriving DecidableEq, Repr

/-- ValidationWarning model (field, message, severity).  The severity
is the literal string "warning" or "error", as in the source. -/
structure ValidationWarning : Type where
  field : String
  message : String
  severity : String
deriving DecidableEq, Repr

/- ------------------------------------------------------------------
C1: ExtractionService confidence scoring
(src/backend/app/services/extraction.py)
------------------------------------------------------------------ -/

/-- The check `extracted_data.get(field) is not None and
extracted_data.get(field) != ""` of _calculate_completeness_confidence:
a missing key reads as None via dict.get. -/
def populatedField (d : Json) (k : String) : Bool :=
  match alookup k d with
  | some v => v ≠ PyVal.vNone && v ≠ PyVal.vStr ""
  | none => false

/-- The required-field table of
ExtractionService._calculate_completeness_confidence. -/
def required_fields_table (rt : RecordType) : List String :=
  match rt with
  | RecordType.FORM => ["client_name", "email"]
  | RecordType.EMAIL => ["client_name", "email", "message"]
  | RecordType.INVOICE => ["invoice_number", "amount", "vat", "total_amount"]

/-- ExtractionService._calculate_completeness_confidence.  The
`if not fields: return 0.5` branch of the source is unreachable for
the three record types and is mirrored by the emptiness test. -/
def calculate_completeness_confidence (d : Json) (rt : RecordType) : ℚ :=
  let fields := required_fields_table rt
  if fields.isEmpty then 1/2
  else
    let present_count : ℕ := (fields.filter (populatedField d)).length
    let completeness : ℚ := (present_count : ℚ) / (fields.length : ℚ)
    roundq 3 completeness

/-- Number of warnings with severity "error". -/
def errorCount (ws : List ValidationWarning) : ℕ :=
  ws.countP (fun w => w.severity = "error")

/-- Number of warnings with severity "warning". -/
def warningCount (ws : List ValidationWarning) : ℕ :=
  ws.countP (fun w => w.severity = "warning")

/-- The confidence value of ExtractionService._calculate_confidence
before the clamp to [0, 1] and the rounding: the base confidence
(AI confidence if present, completeness estimate otherwise) minus
0.15 per error and 0.05 per warning. -/
def pre_clamp_confidence (d : Json) (ai : Option ℚ) (ws : List ValidationWarning)
    (rt : RecordType) : ℚ :=
  (match ai with
   | some c => c
   | none => calculate_completeness_confidence d rt)
  - (errorCount ws : ℚ) * (15/100) - (warningCount ws : ℚ) * (5/100)

/-- ExtractionService._calculate_confidence: clamp to [0, 1] and
round to 3 decimals. -/
def calculate_confidence (d : Json) (ai : Option ℚ) (ws : List ValidationWarning)
    (rt : RecordType) : ℚ :=
  roundq 3 (clamp01 (pre_clamp_confidence d ai ws rt))

/-- The final-confidence formula in the words of the specification:
base confidence is the extractor-reported AI confidence if present,
otherwise the raw ratio count(required fields populated) divided by
count(required fields) (no intermediate rounding); then 0.15 per
error-severity warning and 0.05 per warning-severity warning are
subtracted, the result clamped to [0, 1] and rounded to 3 decimals. -/
def spec_final_confidence (d : Json) (ai : Option ℚ) (ws : List ValidationWarning)
    (rt : RecordType) : ℚ :=
  let base : ℚ :=
    match ai with
    | some c => c
    | none =>
      ((required_fields_table rt).filter (populatedField d)).length /
        ((required_fields_table rt).length : ℚ)
  roundq 3 (clamp01 (base - (errorCount ws : ℚ) * (15/100)
    - (warningCount ws : ℚ) * (5/100)))

theorem roundq_clamp01_nonpos {x : ℚ} (h : x ≤ 0) : roundq 3 (clamp01 x) = 0 := by
  have h1 : clamp01 x = 0 := by
    have : min 1 x ≤ 0 := le_trans (min_le_right 1 x) h
    simp [clamp01, max_eq_left this]
  rw [h1]
  norm_num [roundq, roundHalfEven]

/-- Subtracting the warning penalties from 1/3 and then clamping and
rounding gives the same value as doing so from round(1/3, 3). -/
theorem round_base_third_bridge (m : ℕ) :
    roundq 3 (clamp01 (333/1000 - (m : ℚ)/20)) =
      roundq 3 (clamp01 ((1 : ℚ)/3 - (m : ℚ)/20)) := by
  by_cases h : m ≤ 6
  · interval_cases m <;> norm_num [clamp01, roundq, roundHalfEven]
  · push_neg at h
    have hm : (7 : ℚ) ≤ (m : ℚ) := by exact_mod_cast h
    rw [roundq_clamp01_nonpos (by linarith), roundq_clamp01_nonpos (by linarith)]

/-- Same bridge for 2/3 against round(2/3, 3) = 0.667. -/
theorem round_base_two_thirds_bridge (m : ℕ) :
    roundq 3 (clamp01 (667/1000 - (m : ℚ)/20)) =
      roundq 3 (clamp01 ((2 : ℚ)/3 - (m : ℚ)/20)) := by
  by_cases h : m ≤ 13
  · interval_cases m <;> norm_num [clamp01, roundq, roundHalfEven]
  · push_neg at h
    have hm : (14 : ℚ) ≤ (m : ℚ) := by exact_mod_cast h
    rw [roundq_clamp01_nonpos (by linarith), roundq_clamp01_nonpos (by linarith)]

theorem penalty_as_single_fraction (e w : ℕ) :
    (e : ℚ) * (15/100) + (w : ℚ) * (5/100) = ((3 * e + w : ℕ) : ℚ) / 20 := by
  push_cast
  ring

/-- C1: For every extracted-field dict, optional AI confidence,
warning list and record type, the final confidence computed by
ExtractionService._calculate_confidence equals the specified formula
(base confidence, which is the AI confidence when present and the
required-field completeness ratio of the type-specific table
otherwise, minus 0.15 per error-severity warning and 0.05 per
warning-severity warning, clamped to [0, 1] and rounded to 3
decimals); moreover, holding everything else fixed, one additional
error-severity warning lowers the pre-clamp value by exactly 0.15
and one additional warning-severity warning by exactly 0.05. -/
theorem C1_final_confidence_formula (d : Json) (ai : Option ℚ)
    (ws : List ValidationWarning) (rt : RecordType) :
    calculate_confidence d ai ws rt = spec_final_confidence d ai ws rt
    ∧ (∀ f msg, pre_clamp_confidence d ai (ws ++ [⟨f, msg, "error"⟩]) rt
        = pre_clamp_confidence d ai ws rt - 15/100)
    ∧ (∀ f msg, pre_clamp_confidence d ai (ws ++ [⟨f, msg, "warning"⟩]) rt
        = pre_clamp_confidence d ai ws rt - 5/100) := by
  refine ⟨?_, ?_, ?_⟩
  · -- the rounded formula
    cases ai with
    | some c => rfl
    | none =>
      show roundq 3 (clamp01 (calculate_completeness_confidence d rt
          - (errorCount ws : ℚ) * (15/100) - (warningCount ws : ℚ) * (5/100)))
        = roundq 3 (clamp01
            ((((required_fields_table rt).filter (populatedField d)).length : ℚ) /
              ((required_fields_table rt).length : ℚ)
            - (errorCount ws : ℚ) * (15/100) - (warningCount ws : ℚ) * (5/100)))
      have hsub : ∀ b : ℚ, b - (errorCount ws : ℚ) * (15/100)
          - (warningCount ws : ℚ) * (5/100)
          = b - ((3 * errorCount ws + warningCount ws : ℕ) : ℚ) / 20 := by
        intro b
        rw [← penalty_as_single_fraction]
        ring
      rw [hsub, hsub]
      set m : ℕ := 3 * errorCount ws + warningCount ws with hm
      cases rt with
      | FORM =>
        unfold calculate_completeness_confidence
        simp only [required_fields_table, List.isEmpty_cons, List.length_cons,
          List.length_nil]
        set k : ℕ := (List.filter (populatedField d) ["client_name", "email"]).length
          with hk
        have hkle : k ≤ 2 := by
          have h2 := List.length_filter_le (populatedField d) ["client_name", "email"]
          simpa [← hk] using h2
        norm_num
        interval_cases k <;> norm_num [roundq, roundHalfEven]
      | EMAIL =>
        unfold calculate_completeness_confidence
        simp only [required_fields_table, List.isEmpty_cons, List.length_cons,
          List.length_nil]
        set k : ℕ := (List.filter (populatedField d)
          ["client_name", "email", "message"]).length with hk
        have hkle : k ≤ 3 := by
          have h2 := List.length_filter_le (populatedField d)
            ["client_name", "email", "message"]
          simpa [← hk] using h2
        norm_num
        interval_cases k
        · norm_num [roundq, roundHalfEven]
        · have h1 : roundq 3 ((1 : ℚ)/3) = 333/1000 := by
            norm_num [roundq, roundHalfEven]
          rw [show ((1 : ℕ) : ℚ)/3 = (1 : ℚ)/3 by norm_num, h1]
          exact round_base_third_bridge m
        · have h1 : roundq 3 ((2 : ℚ)/3) = 667/1000 := by
            norm_num [roundq, roundHalfEven]
          rw [show ((2 : ℕ) : ℚ)/3 = (2 : ℚ)/3 by norm_num, h1]
          exact round_base_two_thirds_bridge m
        · norm_num [roundq, roundHalfEven]
      | INVOICE =>
        unfold calculate_completeness_confidence
        simp only [required_fields_table, List.isEmpty_cons, List.length_cons,
          List.length_nil]
        set k : ℕ := (List.filter (populatedField d)
          ["invoice_number", "amount", "vat", "total_amount"]).length with hk
        have hkle : k ≤ 4 := by
          have h2 := List.length_filter_le (populatedField d)
            ["invoice_number", "amount", "vat", "total_amount"]
          simpa [← hk] using h2
        norm_num
        interval_cases k <;> norm_num [roundq, roundHalfEven]
  · -- one more error lowers the pre-clamp value by 0.15
    intro f msg
    unfold pre_clamp_confidence errorCount warningCount
    simp [List.countP_append, List.countP_cons]
    ring
  · -- one more warning lowers the pre-clamp value by 0.05
    intro f msg
    unfold pre_clamp_confidence errorCount warningCount
    simp [List.countP_append, List.countP_cons]
    ring

/- ------------------------------------------------------------------
C2 / C5: PendingQueueManager (src/backend/app/pending_queue/manager.py)

The Redis store is modelled as an association list from full record
keys ("queue:record:" ++ id) to stored records, together with the
"queue:record_ids" set and the list of events published on the
pub/sub channel.  A raised exception (Conflict / NotFound /
validation failure) leaves the store unchanged, which is what the
source guarantees by checking before writing.
-/

/-- record_key = QUEUE_PREFIX + record.id. -/
def recordKey (record_id : String) : String := "queue:record:" ++ record_id

/-- A stored ExtractionRecord, with the fields the queue manager
reads (id, type, confidence) split out; `fields` holds the remaining
model fields of the serialised record.  `type` is the serialised
enum value ("FORM" / "EMAIL" / "INVOICE"). -/
structure QRecord : Type where
  id : String
  type : String
  confidence : Option ℚ
  fields : Json
deriving DecidableEq, Repr

/-- record.model_dump_json(), as a dict. -/
def recordToJson (r : QRecord) : Json :=
  ("id", PyVal.vStr r.id) :: ("type", PyVal.vStr r.type) ::
    ("confidence", match r.confidence with
      | some q => PyVal.vNum q
      | none => PyVal.vNone) :: r.fields

/-- ExtractionRecord(**record_data): pydantic re-validation of a
merged dict.  id and type must be strings, type a RecordType value,
confidence in [0, 1] or None; unknown keys are dropped (pydantic
default extra behaviour).  Validation of the remaining typed fields
is not modelled; a failed validation raises, which leaves the store
unchanged, so the queue invariants are insensitive to it. -/
def recordOfJson (j : Json) : Option QRecord :=
  match alookup "id" j, alookup "type" j with
  | some (PyVal.vStr i), some (PyVal.vStr t) =>
    if t = "FORM" ∨ t = "EMAIL" ∨ t = "INVOICE" then
      let rest := j.filter (fun p => p.1 ≠ "id" ∧ p.1 ≠ "type" ∧ p.1 ≠ "confidence")
      match alookup "confidence" j with
      | some (PyVal.vNum q) =>
        if 0 ≤ q ∧ q ≤ 1 then some ⟨i, t, some q, rest⟩ else none
      | some PyVal.vNone => some ⟨i, t, none, rest⟩
      | none => some ⟨i, t, none, rest⟩
      | some _ => none
    else none
  | _, _ => none

/-- Events published on the queue:events pub/sub channel, with their
payloads. -/
inductive QEvent : Type where
  | record_added (record_id : String) (type : String) (confidence : Option ℚ) : QEvent
  | record_removed (record_id : String) : QEvent
  | record_updated (record_id : String) (updates : List String) : QEvent
deriving DecidableEq, Repr

/-- The typed errors of the queue contract: ValueError on duplicate
add, KeyError on missing id, pydantic validation failure on a bad
merged update. -/
inductive QueueError : Type where
  | conflict (record_id : String) : QueueError
  | notFound (record_id : String) : QueueError
  | validation : QueueError
deriving DecidableEq, Repr

/-- The modelled Redis state owned by PendingQueueManager: the record
keys with their stored records, the queue:record_ids set, and the
published events in order. -/
structure QueueState : Type where
  kv : List (String × QRecord)
  ids : List String
  events : List QEvent
deriving DecidableEq, Repr

def initialQueueState : QueueState := ⟨[], [], []⟩

/-- Redis SADD: insert into a set. -/
def sadd (x : String) (s : List String) : List String :=
  if x ∈ s then s else s ++ [x]

/-- Redis SREM: remove from a set. -/
def srem (x : String) (s : List String) : List String :=
  s.filter (fun y => y ≠ x)

/-- PendingQueueManager.add. -/
def qm_add (st : QueueState) (r : QRecord) : Except QueueError QueueState :=
  let record_key := recordKey r.id
  if (alookup record_key st.kv).isSome then Except.error (QueueError.conflict r.id)
  else
    Except.ok
      { kv := aset record_key r st.kv,
        ids := sadd r.id st.ids,
        events := st.events ++ [QEvent.record_added r.id r.type r.confidence] }

/-- PendingQueueManager.remove. -/
def qm_remove (st : QueueState) (record_id : String) : Except QueueError QueueState :=
  let record_key := recordKey record_id
  if (alookup record_key st.kv).isSome then
    Except.ok
      { kv := aerase record_key st.kv,
        ids := srem record_id st.ids,
        events := st.events ++ [QEvent.record_removed record_id] }
  else Except.error (QueueError.notFound record_id)

/-- PendingQueueManager.update: read-modify-write of the stored
record under the SAME record key; the updates dict is merged into the
serialised record and the result re-validated before being stored. -/
def qm_update (st : QueueState) (record_id : String) (updates : Json) :
    Except QueueError QueueState :=
  let record_key := recordKey record_id
  match alookup record_key st.kv with
  | none => Except.error (QueueError.notFound record_id)
  | some r =>
    let merged := updates.foldl (fun acc p => aset p.1 p.2 acc) (recordToJson r)
    match recordOfJson merged with
    | none => Except.error QueueError.validation
    | some r2 =>
      Except.ok
        { kv := aset record_key r2 st.kv,
          ids := st.ids,
          events := st.events ++ [QEvent.record_updated record_id (updates.map Prod.fst)] }

/-- PendingQueueManager.get_by_id: record or explicit absence. -/
def qm_get_by_id (st : QueueState) (record_id : String) : Option QRecord :=
  alookup (recordKey record_id) st.kv

/-- PendingQueueManager.clear: delete every record key listed in the
ids set, then the ids set itself. -/
def qm_clear (st : QueueState) : QueueState :=
  { kv := st.ids.foldl (fun acc i => aerase (recordKey i) acc) st.kv,
    ids := [],
    events := st.events }

/-- The queue operations of the claim. -/
inductive QOp : Type where
  | add (r : QRecord) : QOp
  | remove (record_id : String) : QOp
  | update (record_id : String) (updates : Json) : QOp
  | clear : QOp

/-- Run one operation; a raised error leaves the state unchanged. -/
def applyOp (st : QueueState) (op : QOp) : QueueState :=
  match op with
  | QOp.add r => match qm_add st r with | Except.ok st2 => st2 | Except.error _ => st
  | QOp.remove i => match qm_remove st i with | Except.ok st2 => st2 | Except.error _ => st
  | QOp.update i u => match qm_update st i u with | Except.ok st2 => st2 | Except.error _ => st
  | QOp.clear => qm_clear st

/-- Run a sequence of operations from the empty store. -/
def runOps (ops : List QOp) : QueueState := ops.foldl applyOp initialQueueState

/-- The store invariant of the specification: at most one stored
record per key, a duplicate-free ids set, and membership of the ids
index exactly when the record key is stored. -/
def QueueInv (st : QueueState) : Prop :=
  (st.kv.map Prod.fst).Nodup ∧ st.ids.Nodup ∧
    ∀ record_id, record_id ∈ st.ids ↔
      (alookup (recordKey record_id) st.kv).isSome = true

theorem recordKey_injective {a b : String} (h : recordKey a = recordKey b) :
    a = b := by
  unfold recordKey at h
  have h2 := congrArg String.data h
  simp only [String.data_append] at h2
  have h3 := List.append_cancel_left h2
  cases a; cases b
  exact congrArg String.mk h3

theorem alookup_eq_none_iff {α : Type} (k : String) (l : List (String × α)) :
    alookup k l = none ↔ k ∉ l.map Prod.fst := by
  induction l with
  | nil => simp [alookup]
  | cons hd tl ih =>
    obtain ⟨k2, v2⟩ := hd
    by_cases h : k = k2 <;> simp [alookup, h, ih]

theorem aset_of_not_mem {α : Type} {k : String} {l : List (String × α)}
    (h : k ∉ l.map Prod.fst) (v : α) : aset k v l = l ++ [(k, v)] := by
  induction l with
  | nil => simp [aset]
  | cons hd tl ih =>
    obtain ⟨k2, v2⟩ := hd
    simp only [List.map_cons, List.mem_cons] at h
    push_neg at h
    simp [aset, h.1, ih h.2]

theorem map_fst_aset_of_mem {α : Type} {k : String} {l : List (String × α)}
    (h : k ∈ l.map Prod.fst) (v : α) :
    (aset k v l).map Prod.fst = l.map Prod.fst := by
  induction l with
  | nil => simp at h
  | cons hd tl ih =>
    obtain ⟨k2, v2⟩ := hd
    by_cases h2 : k = k2
    · simp [aset, h2]
    · simp only [List.map_cons, List.mem_cons] at h
      rcases h with h | h
    
      · exact absurd h h2
      · simp [aset, h2, ih h]

theorem map_fst_aerase {α : Type} (k : String) (l : List (String × α)) :
    (aerase k l).map Prod.fst = (l.map Prod.fst).filter (fun x => x ≠ k) := by
  induction l with
  | nil => simp [aerase]
  | cons hd tl ih =>
    obtain ⟨k2, v2⟩ := hd
    by_cases h : k2 = k <;> simp [aerase, h, ih]

theorem mem_sadd (x y : String) (s : List String) :
    y ∈ sadd x s ↔ y ∈ s ∨ y = x := by
  unfold sadd
  by_cases h : x ∈ s
  · simp only [if_pos h]
    constructor
    · exact Or.inl
    · rintro (h2 | rfl) <;> [exact h2; exact h]
  · simp [if_neg h]

theorem nodup_sadd (x : String) {s : List String} (h : s.Nodup) :
    (sadd x s).Nodup := by
  unfold sadd
  by_cases h2 : x ∈ s
  · simpa [if_pos h2]
  · simp [if_neg h2, List.nodup_append, h, h2]

theorem alookup_foldl_aerase_of_mem {α : Type} {k : String} {ids : List String}
    (h : ∃ i ∈ ids, recordKey i = k) (l : List (String × α)) :
    alookup k (ids.foldl (fun acc i => aerase (recordKey i) acc) l) = none := by
  induction ids generalizing l with
  | nil => simp at h
  | cons i ids ih =>
    simp only [List.foldl_cons]
    simp only [List.mem_cons] at h
    obtain ⟨j, hj, hk⟩ := h
    rcases hj with rfl | hj
    · -- the head id is erased first; later erasures never re-add a key
      subst hk
      have herased : alookup (recordKey j) (aerase (recordKey j) l) = none :=
        alookup_aerase_self _ _
      -- show the property that foldl of erasures preserves a none lookup
      clear ih
      generalize aerase (recordKey j) l = l2 at herased ⊢
      induction ids generalizing l2 with
      | nil => simpa using herased
      | cons i2 ids2 ih2 =>
        simp only [List.foldl_cons]
        by_cases h2 : recordKey j = recordKey i2
        · exact ih2 _ (h2 ▸ alookup_aerase_self _ _)
        · exact ih2 _ ((alookup_aerase_ne h2 _).trans herased)
    · exact ih ⟨j, hj, hk⟩ _

theorem alookup_foldl_aerase_of_not_mem {α : Type} {k : String} {ids : List String}
    (h : ∀ i ∈ ids, recordKey i ≠ k) (l : List (String × α)) :
    alookup k (ids.foldl (fun acc i => aerase (recordKey i) acc) l) = alookup k l := by
  induction ids generalizing l with
  | nil => simp
  | cons i ids ih =>
    simp only [List.foldl_cons]
    have h1 : k ≠ recordKey i := fun h2 => h i (by simp) h2.symm
    rw [ih (fun j hj => h j (by simp [hj])) _, alookup_aerase_ne h1]

theorem nodup_foldl_aerase {α : Type} (ids : List String) {l : List (String × α)}
    (h : (l.map Prod.fst).Nodup) :
    ((ids.foldl (fun acc i => aerase (recordKey i) acc) l).map Prod.fst).Nodup := by
  induction ids generalizing l with
  | nil => simpa
  | cons i ids ih =>
    simp only [List.foldl_cons]
    exact ih (by rw [map_fst_aerase]; exact h.filter _)

theorem applyOp_preserves_inv (st : QueueState) (op : QOp) (h : QueueInv st) :
    QueueInv (applyOp st op) := by
  obtain ⟨hkv, hids, hiff⟩ := h
  cases op with
  | add r =>
    show QueueInv (match qm_add st r with
      | Except.ok st2 => st2 | Except.error _ => st)
    unfold qm_add
    by_cases hex : (alookup (recordKey r.id) st.kv).isSome
    · simp only [hex, if_true]
      exact ⟨hkv, hids, hiff⟩
    · simp only [hex, Bool.false_eq_true, if_false]
      have hex2 : recordKey r.id ∉ st.kv.map Prod.fst := by
        rw [← alookup_eq_none_iff]
        exact Option.not_isSome_iff_eq_none.mp (by simp [hex])
      refine ⟨?_, nodup_sadd _ hids, ?_⟩
      · rw [aset_of_not_mem hex2]
        simp [List.nodup_append, hkv, hex2]
      · intro i
        rw [mem_sadd]
        by_cases hi : i = r.id
        · subst hi
          simp [alookup_aset_self]
        · have hk : recordKey i ≠ recordKey r.id :=
            fun hc => hi (recordKey_injective hc)
          rw [alookup_aset_ne hk]
          simp [hiff i, hi]
  | remove rid =>
    show QueueInv (match qm_remove st rid with
      | Except.ok st2 => st2 | Except.error _ => st)
    unfold qm_remove
    by_cases hex : (alookup (recordKey rid) st.kv).isSome
    · simp only [hex, if_true]
      refine ⟨?_, hids.filter _, ?_⟩
      · rw [map_fst_aerase]
        exact hkv.filter _
      · intro i
        unfold srem
        by_cases hi : i = rid
        · subst hi
          simp [alookup_aerase_self]
        · have hk : recordKey i ≠ recordKey rid :=
            fun hc => hi (recordKey_injective hc)
          rw [List.mem_filter, alookup_aerase_ne hk]
          simp [hiff i, hi]
    · simp only [hex, Bool.false_eq_true, if_false]
      exact ⟨hkv, hids, hiff⟩
  | update rid upd =>
    show QueueInv (match qm_update st rid upd with
      | Except.ok st2 => st2 | Except.error _ => st)
    unfold qm_update
    cases hl : alookup (recordKey rid) st.kv with
    | none =>
      simp only [hl]
      exact ⟨hkv, hids, hiff⟩
    | some r =>
      cases hr : recordOfJson (upd.foldl (fun acc p => aset p.1 p.2 acc) (recordToJson r)) with
      | none =>
        simp only [hl, hr]
        exact ⟨hkv, hids, hiff⟩
      | some r2 =>
        simp only [hl, hr]
        have hmem : recordKey rid ∈ st.kv.map Prod.fst := by
          by_contra hc
          rw [← alookup_eq_none_iff] at hc
          rw [hc] at hl
          exact Option.noConfusion hl
        refine ⟨?_, hids, ?_⟩
        · rw [map_fst_aset_of_mem hmem]
          exact hkv
        · intro i
          by_cases hi : i = rid
          · subst hi
            simp [alookup_aset_self, hiff i, hl]
          · have hk : recordKey i ≠ recordKey rid :=
              fun hc => hi (recordKey_injective hc)
            rw [alookup_aset_ne hk]
            exact hiff i
  | clear =>
    show QueueInv (qm_clear st)
    unfold qm_clear
    refine ⟨nodup_foldl_aerase _ hkv, List.nodup_nil, ?_⟩
    intro i
    simp only [List.not_mem_nil, false_iff]
    by_cases hi : i ∈ st.ids
    · rw [alookup_foldl_aerase_of_mem ⟨i, hi, rfl⟩]
      simp
    · rw [alookup_foldl_aerase_of_not_mem
        (fun j hj hc => hi (by
          have hji : j = i := recordKey_injective hc
          rwa [hji] at hj))]
      have h2 := (hiff i).not.mp hi
      simpa using h2

/-- C5: In every queue state reachable from the empty store by any
sequence of add / remove / update / clear operations, each record key
holds at most one stored record, the ids set is duplicate-free, and
an id is a member of the record-ids index exactly when a record is
stored under its record key; this still holds after one further
update with an arbitrary field mapping (including mappings that
contain an "id" key). -/
theorem C5_reachable_states_satisfy_invariant (ops : List QOp) :
    QueueInv (runOps ops) ∧
      ∀ record_id updates,
        QueueInv (applyOp (runOps ops) (QOp.update record_id updates)) := by
  have hinit : QueueInv initialQueueState := by
    refine ⟨List.nodup_nil, List.nodup_nil, ?_⟩
    intro i
    simp [initialQueueState, alookup]
  have hrun : ∀ (l : List QOp) (st : QueueState), QueueInv st →
      QueueInv (l.foldl applyOp st) := by
    intro l
    induction l with
    | nil => intro st h; simpa
    | cons op rest ih =>
      intro st h
      exact ih _ (applyOp_preserves_inv st op h)
  refine ⟨hrun ops _ hinit, fun record_id updates => ?_⟩
  exact applyOp_preserves_inv _ _ (hrun ops _ hinit)

/-- C2: add fails with a Conflict error and changes nothing when the
id is already stored, and otherwise stores the record and publishes
exactly one record_added event carrying record_id, type and
confidence; remove fails with NotFound when the id is absent, and
otherwise deletes the record and publishes exactly one
record_removed event; after add followed by remove, get_by_id
returns the explicit absent result and exactly one record_removed
event with that id was published. -/
theorem C2_add_remove_contract (st : QueueState) (r : QRecord) (record_id : String) :
    ((alookup (recordKey r.id) st.kv).isSome = true →
      qm_add st r = Except.error (QueueError.conflict r.id) ∧
        applyOp st (QOp.add r) = st)
    ∧ ((alookup (recordKey r.id) st.kv).isSome = false →
      qm_add st r = Except.ok
          { kv := aset (recordKey r.id) r st.kv,
            ids := sadd r.id st.ids,
            events := st.events ++ [QEvent.record_added r.id r.type r.confidence] } ∧
        qm_get_by_id (applyOp st (QOp.add r)) r.id = some r)
    ∧ ((alookup (recordKey record_id) st.kv).isSome = false →
      qm_remove st record_id = Except.error (QueueError.notFound record_id))
    ∧ ((alookup (recordKey record_id) st.kv).isSome = true →
      qm_remove st record_id = Except.ok
          { kv := aerase (recordKey record_id) st.kv,
            ids := srem record_id st.ids,
            events := st.events ++ [QEvent.record_removed record_id] } ∧
        qm_get_by_id (applyOp st (QOp.remove record_id)) record_id = none)
    ∧ ((alookup (recordKey r.id) st.kv).isSome = false →
      qm_get_by_id (applyOp (applyOp st (QOp.add r)) (QOp.remove r.id)) r.id = none ∧
        ((applyOp (applyOp st (QOp.add r)) (QOp.remove r.id)).events.drop
            st.events.length).countP
          (fun e => decide (e = QEvent.record_removed r.id)) = 1) := by
  refine ⟨?_, ?_, ?_, ?_, ?_⟩
  · intro h
    constructor
    · unfold qm_add
      simp [h]
    · show (match qm_add st r with
        | Except.ok st2 => st2 | Except.error _ => st) = st
      unfold qm_add
      simp [h]
  · intro h
    have hok : qm_add st r = Except.ok
        { kv := aset (recordKey r.id) r st.kv,
          ids := sadd r.id st.ids,
          events := st.events ++ [QEvent.record_added r.id r.type r.confidence] } := by
      unfold qm_add
      simp [h]
    refine ⟨hok, ?_⟩
    show qm_get_by_id (match qm_add st r with
      | Except.ok st2 => st2 | Except.error _ => st) r.id = some r
    rw [hok]
    unfold qm_get_by_id
    exact alookup_aset_self _ _ _
  · intro h
    unfold qm_remove
    simp [h]
  · intro h
    have hok : qm_remove st record_id = Except.ok
        { kv := aerase (recordKey record_id) st.kv,
          ids := srem record_id st.ids,
          events := st.events ++ [QEvent.record_removed record_id] } := by
      unfold qm_remove
      simp [h]
    refine ⟨hok, ?_⟩
    show qm_get_by_id (match qm_remove st record_id with
      | Except.ok st2 => st2 | Except.error _ => st) record_id = none
    rw [hok]
    unfold qm_get_by_id
    exact alookup_aerase_self _ _
  · intro h
    have hok : qm_add st r = Except.ok
        { kv := aset (recordKey r.id) r st.kv,
          ids := sadd r.id st.ids,
          events := st.events ++ [QEvent.record_added r.id r.type r.confidence] } := by
      unfold qm_add
      simp [h]
    have hst1 : applyOp st (QOp.add r) =
        { kv := aset (recordKey r.id) r st.kv,
          ids := sadd r.id st.ids,
          events := st.events ++ [QEvent.record_added r.id r.type r.confidence] } := by
      show (match qm_add st r with
        | Except.ok st2 => st2 | Except.error _ => st) = _
      rw [hok]
    have hmem : (alookup (recordKey r.id)
        (aset (recordKey r.id) r st.kv)).isSome = true := by
      rw [alookup_aset_self]
      rfl
    have hok2 : qm_remove (applyOp st (QOp.add r)) r.id = Except.ok
        { kv := aerase (recordKey r.id) (aset (recordKey r.id) r st.kv),
          ids := srem r.id (sadd r.id st.ids),
          events := (st.events ++ [QEvent.record_added r.id r.type r.confidence])
            ++ [QEvent.record_removed r.id] } := by
      rw [hst1]
      unfold qm_remove
      simp [hmem]
    have hst2 : applyOp (applyOp st (QOp.add r)) (QOp.remove r.id) =
        { kv := aerase (recordKey r.id) (aset (recordKey r.id) r st.kv),
          ids := srem r.id (sadd r.id st.ids),
          events := (st.events ++ [QEvent.record_added r.id r.type r.confidence])
            ++ [QEvent.record_removed r.id] } := by
      show (match qm_remove (applyOp st (QOp.add r)) r.id with
        | Except.ok st2 => st2 | Except.error _ => applyOp st (QOp.add r)) = _
      rw [hok2]
    constructor
    · rw [hst2]
      unfold qm_get_by_id
      exact alookup_aerase_self _ _
    · rw [hst2]
      have hdrop : ((st.events ++ [QEvent.record_added r.id r.type r.confidence])
          ++ [QEvent.record_removed r.id]).drop st.events.length
          = [QEvent.record_added r.id r.type r.confidence,
             QEvent.record_removed r.id] := by
        rw [List.append_assoc, List.drop_left]
        rfl
      rw [hdrop]
      simp [List.countP_cons]

/-- Witness for C2 at concrete inputs: a record added to the empty
store can be removed again (get_by_id then reports absence and
exactly one record_removed event was published), and a second add of
the same id while it is stored fails with the Conflict error. -/
theorem C2_add_remove_contract_witness :
    (qm_get_by_id (applyOp (applyOp initialQueueState
        (QOp.add ⟨"r1", "FORM", none, []⟩))
        (QOp.remove "r1")) "r1" = none ∧
      ((applyOp (applyOp initialQueueState (QOp.add ⟨"r1", "FORM", none, []⟩))
          (QOp.remove "r1")).events.drop 0).countP
        (fun e => decide (e = QEvent.record_removed "r1")) = 1)
    ∧ qm_add (applyOp initialQueueState (QOp.add ⟨"r1", "FORM", none, []⟩))
        ⟨"r1", "FORM", none, []⟩ =
      Except.error (QueueError.conflict "r1") := by
  constructor
  · have h := (C2_add_remove_contract initialQueueState
      ⟨"r1", "FORM", none, []⟩ "r1").2.2.2.2 (by rfl)
    simpa using h
  · have h := (C2_add_remove_contract
      (applyOp initialQueueState (QOp.add ⟨"r1", "FORM", none, []⟩))
      ⟨"r1", "FORM", none, []⟩ "r1").1 (by rfl)
    exact h.1

/- ------------------------------------------------------------------
C3: HybridInvoiceParser selection policy
(src/backend/app/parsers/hybrid/invoice_parser.py)

The LLM call is modelled by its outcome: either a raised failure or
the dict returned by LLMInvoiceParser.parse.  The settings fields
involved (use_llm_extraction, llm_confidence_threshold,
llm_fallback_to_rules) are passed explicitly, as is whether the LLM
parser was successfully initialised (self.llm_parser is not None).
------------------------------------------------------------------ -/

/-- The configuration read by the hybrid parser. -/
structure HybridConfig : Type where
  use_llm_extraction : Bool
  llm_confidence_threshold : ℚ
  llm_fallback_to_rules : Bool

/-- Outcome of self.llm_parser.parse(filepath): a raised exception or
the returned dict. -/
inductive LlmOutcome : Type where
  | failure : LlmOutcome
  | success (data : Json) : LlmOutcome

/-- data.get("_confidence", 0.0).  The LLM parsers always store a
float under "_confidence", so only the numeric and missing cases
occur; a non-numeric value is read as 0 here (in the source a
non-numeric value would make the comparison raise, which the caller
turns into the same rule-based fallback). -/
def confOf (d : Json) : ℚ :=
  match alookup "_confidence" d with
  | some (PyVal.vNum q) => q
  | some _ => 0
  | none => 0

/-- HybridInvoiceParser._try_llm_extraction, given the dict returned
by the LLM parser: accept at or above the threshold (method "llm"),
below the threshold return None when fallback is enabled, otherwise
accept anyway (method "llm-low-confidence"). -/
def try_llm_extraction (cfg : HybridConfig) (data : Json) : Option Json :=
  let confidence := confOf data
  if cfg.llm_confidence_threshold ≤ confidence then
    some (aset "_extraction_method" (PyVal.vStr "llm") data)
  else if cfg.llm_fallback_to_rules then none
  else some (aset "_extraction_method" (PyVal.vStr "llm-low-confidence") data)

/-- The rule-based fallback tail of HybridInvoiceParser.parse: the
rule parser output with _extraction_method = "rule-based" and
_confidence = None. -/
def ruleFallbackResult (ruleData : Json) : Json :=
  aset "_confidence" PyVal.vNone
    (aset "_extraction_method" (PyVal.vStr "rule-based") ruleData)

/-- HybridInvoiceParser.parse: LLM first when enabled and
initialised, with any raised failure or a None result (low
confidence with fallback enabled) falling back to the rule-based
parser output.  The `if data:` truthiness test of the source is the
Option match: a returned dict always carries _extraction_method and
is therefore non-empty. -/
def hybridParse (cfg : HybridConfig) (llmInit : Bool) (llm : LlmOutcome)
    (ruleData : Json) : Json :=
  if cfg.use_llm_extraction && llmInit then
    match llm with
    | LlmOutcome.failure => ruleFallbackResult ruleData
    | LlmOutcome.success data =>
      match try_llm_extraction cfg data with
      | some out => out
      | none => ruleFallbackResult ruleData
  else ruleFallbackResult ruleData

/-- data.get("_extraction_method", "rule-based") as read by
HybridInvoiceParser.validate (the value is always a string). -/
def extraction_method_of (d : Json) : String :=
  match alookup "_extraction_method" d with
  | some (PyVal.vStr s) => s
  | some _ => "rule-based"
  | none => "rule-based"

/-- HybridInvoiceParser.validate dispatch: true selects the LLM
validator, false the rule-based validator. -/
def hybridValidateDispatch (llmInit : Bool) (d : Json) : Bool :=
  (extraction_method_of d).startsWith "llm" && llmInit

/-- C3: with AI extraction enabled and the LLM parser initialised,
an AI success with confidence c is accepted with method "llm" when
c >= threshold; below the threshold the AI result is discarded in
favour of the rule-based output (method "rule-based") when fallback
is enabled, and otherwise accepted with method "llm-low-confidence";
an AI failure, or AI extraction disabled, yields the rule-based
output; every non-metadata field of the result comes from exactly
one extractor; and validation dispatches to the AI validator exactly
when the accepted method starts with "llm". -/
theorem C3_hybrid_selection_policy (cfg : HybridConfig) (llmData ruleData : Json)
    (c : ℚ) (hconf : confOf llmData = c) :
    (cfg.use_llm_extraction = true →
      ((cfg.llm_confidence_threshold ≤ c →
        hybridParse cfg true (LlmOutcome.success llmData) ruleData =
          aset "_extraction_method" (PyVal.vStr "llm") llmData ∧
        extraction_method_of
          (hybridParse cfg true (LlmOutcome.success llmData) ruleData) = "llm")
      ∧ (c < cfg.llm_confidence_threshold → cfg.llm_fallback_to_rules = true →
        hybridParse cfg true (LlmOutcome.success llmData) ruleData =
          ruleFallbackResult ruleData ∧
        extraction_method_of
          (hybridParse cfg true (LlmOutcome.success llmData) ruleData) =
            "rule-based" ∧
        ∀ k, k ≠ "_extraction_method" → k ≠ "_confidence" →
          alookup k (hybridParse cfg true (LlmOutcome.success llmData) ruleData) =
            alookup k ruleData)
      ∧ (c < cfg.llm_confidence_threshold → cfg.llm_fallback_to_rules = false →
        hybridParse cfg true (LlmOutcome.success llmData) ruleData =
          aset "_extraction_method" (PyVal.vStr "llm-low-confidence") llmData ∧
        extraction_method_of
          (hybridParse cfg true (LlmOutcome.success llmData) ruleData) =
            "llm-low-confidence")
      ∧ hybridParse cfg true LlmOutcome.failure ruleData = ruleFallbackResult ruleData))
    ∧ (cfg.use_llm_extraction = false →
      ∀ llm, hybridParse cfg true llm ruleData = ruleFallbackResult ruleData)
    ∧ (∀ llmInit,
        ((∀ k, k ≠ "_extraction_method" → k ≠ "_confidence" →
          alookup k (hybridParse cfg llmInit (LlmOutcome.success llmData) ruleData) =
            alookup k llmData) ∨
        (∀ k, k ≠ "_extraction_method" → k ≠ "_confidence" →
          alookup k (hybridParse cfg llmInit (LlmOutcome.success llmData) ruleData) =
            alookup k ruleData)) ∧
        (∀ k, k ≠ "_extraction_method" → k ≠ "_confidence" →
          alookup k (hybridParse cfg llmInit LlmOutcome.failure ruleData) =
            alookup k ruleData))
    ∧ (∀ d, hybridValidateDispatch true d =
        (extraction_method_of d).startsWith "llm") := by
  subst hconf
  have hrule_method : ∀ rd : Json,
      extraction_method_of (ruleFallbackResult rd) = "rule-based" := by
    intro rd
    unfold extraction_method_of ruleFallbackResult
    rw [alookup_aset_ne (by decide), alookup_aset_self]
  have hrule_fields : ∀ (rd : Json) (k : String),
      k ≠ "_extraction_method" → k ≠ "_confidence" →
      alookup k (ruleFallbackResult rd) = alookup k rd := by
    intro rd k h1 h2
    unfold ruleFallbackResult
    rw [alookup_aset_ne h2, alookup_aset_ne h1]
  refine ⟨?_, ?_, ?_, ?_⟩
  · intro huse
    refine ⟨?_, ?_, ?_, ?_⟩
    · intro hth
      have hres : hybridParse cfg true (LlmOutcome.success llmData) ruleData =
          aset "_extraction_method" (PyVal.vStr "llm") llmData := by
        unfold hybridParse try_llm_extraction
        simp [huse, hth]
      refine ⟨hres, ?_⟩
      rw [hres]
      unfold extraction_method_of
      rw [alookup_aset_self]
    · intro hth hfb
      have hres : hybridParse cfg true (LlmOutcome.success llmData) ruleData =
          ruleFallbackResult ruleData := by
        unfold hybridParse try_llm_extraction
        simp [huse, not_le.mpr hth, hfb]
      exact ⟨hres, by rw [hres]; exact hrule_method _,
        fun k h1 h2 => by rw [hres]; exact hrule_fields _ _ h1 h2⟩
    · intro hth hfb
      have hres : hybridParse cfg true (LlmOutcome.success llmData) ruleData =
          aset "_extraction_method" (PyVal.vStr "llm-low-confidence") llmData := by
        unfold hybridParse try_llm_extraction
        simp [huse, not_le.mpr hth, hfb]
      refine ⟨hres, ?_⟩
      rw [hres]
      unfold extraction_method_of
      rw [alookup_aset_self]
    · unfold hybridParse
      simp [huse]
  · intro huse llm
    unfold hybridParse
    simp [huse]
  · intro llmInit
    constructor
    · by_cases hgate : cfg.use_llm_extraction && llmInit
      · unfold hybridParse try_llm_extraction
        simp only [hgate, if_true]
        by_cases hth : cfg.llm_confidence_threshold ≤ confOf llmData
        · left
          intro k h1 h2
          simp only [hth, if_true]
          rw [alookup_aset_ne h1]
        · by_cases hfb : cfg.llm_fallback_to_rules
          · right
            intro k h1 h2
            simp only [hth, if_false, hfb, if_true]
            exact hrule_fields _ _ h1 h2
          · left
            intro k h1 h2
            simp only [hth, if_false, hfb, Bool.false_eq_true]
            rw [alookup_aset_ne h1]
      · right
        intro k h1 h2
        unfold hybridParse
        simp only [hgate, Bool.false_eq_true, if_false]
        exact hrule_fields _ _ h1 h2
    · intro k h1 h2
      by_cases hgate : cfg.use_llm_extraction && llmInit
      · unfold hybridParse
        simp only [hgate, if_true]
        exact hrule_fields _ _ h1 h2
      · unfold hybridParse
        simp only [hgate, Bool.false_eq_true, if_false]
        exact hrule_fields _ _ h1 h2
  · intro d
    unfold hybridValidateDispatch
    simp

/-- Witness for C3: with threshold 0.7, fallback enabled and an AI
confidence of 0.5, the selector discards the AI result and returns
the rule-based output with method "rule-based". -/
theorem C3_hybrid_selection_policy_witness :
    hybridParse ⟨true, 7/10, true⟩ true
        (LlmOutcome.success [("_confidence", PyVal.vNum (1/2)),
          ("amount", PyVal.vStr "ai-amount")])
        [("amount", PyVal.vStr "rule-amount")] =
      ruleFallbackResult [("amount", PyVal.vStr "rule-amount")] ∧
    extraction_method_of (hybridParse ⟨true, 7/10, true⟩ true
        (LlmOutcome.success [("_confidence", PyVal.vNum (1/2)),
          ("amount", PyVal.vStr "ai-amount")])
        [("amount", PyVal.vStr "rule-amount")]) = "rule-based" := by
  have h := ((C3_hybrid_selection_policy ⟨true, 7/10, true⟩
      [("_confidence", PyVal.vNum (1/2)), ("amount", PyVal.vStr "ai-amount")]
      [("amount", PyVal.vStr "rule-amount")] (1/2) rfl).1 rfl).2.1
      (by norm_num) rfl
  exact ⟨h.1, h.2.1⟩

/- ------------------------------------------------------------------
C4: AIExtractor response parsing and overall confidence
(src/backend/app/parsers/llm_based/extractor.py)
------------------------------------------------------------------ -/

/-- JSON values of the parsed model response. -/
inductive JVal : Type where
  | jNull : JVal
  | jStr (s : String) : JVal
  | jNum (q : ℚ) : JVal
  | jBool (b : Bool) : JVal
  | jDict (l : List (String × JVal)) : JVal
  | jArr (l : List JVal) : JVal

/-- isinstance(field_data, dict) and "value" in field_data. -/
def isWrappedValue : JVal → Bool
  | JVal.jDict l => (alookup "value" l).isSome
  | _ => false

/-- AIExtractor._parse_llm_response: split the parsed JSON object
into extracted values and per-field confidences.  A field wrapped as
a dict containing "value" contributes its value and its confidence
(default 0.5 when no "confidence" key); a bare value contributes
itself with confidence 0.5.  The source stores the confidences dict
under the "field_confidences" key of the same dict; here the pair is
returned instead. -/
def parse_llm_response : List (String × JVal) →
    (List (String × JVal)) × (List (String × JVal))
  | [] => ([], [])
  | (f, v) :: rest =>
    let pr := parse_llm_response rest
    match v with
    | JVal.jDict l =>
      if (alookup "value" l).isSome then
        ((f, (alookup "value" l).getD JVal.jNull) :: pr.1,
          (f, (alookup "confidence" l).getD (JVal.jNum (1/2))) :: pr.2)
      else ((f, JVal.jDict l) :: pr.1, (f, JVal.jNum (1/2)) :: pr.2)
    | v2 => ((f, v2) :: pr.1, (f, JVal.jNum (1/2)) :: pr.2)

/-- extracted_data.get(field) is not None: the key is present with a
non-null value. -/
def ai_field_present (extracted : List (String × JVal)) (f : String) : Bool :=
  match alookup f extracted with
  | some JVal.jNull => false
  | some _ => true
  | none => false

def invoice_fields_list : List String :=
  ["invoice_number", "amount", "vat", "total_amount"]

def optional_fields_list : List String := ["priority", "message"]

/-- any(extracted_data.get(field) is not None for field in invoice_fields). -/
def has_invoice_data (extracted : List (String × JVal)) : Bool :=
  invoice_fields_list.any (ai_field_present extracted)

/-- The required-field list of AIExtractor._calculate_confidence:
schema fields restricted to the invoice fields plus date and
client_name when invoice data is populated, otherwise schema fields
that are neither invoice fields nor optional fields. -/
def ai_required_fields (extracted : List (String × JVal))
    (schema : List (String × String)) : List String :=
  if has_invoice_data extracted then
    (schema.map Prod.fst).filter
      (fun f => decide (f ∈ invoice_fields_list ∨ f = "date" ∨ f = "client_name"))
  else
    (schema.map Prod.fst).filter
      (fun f => decide (f ∉ invoice_fields_list ∧ f ∉ optional_fields_list))

/-- The confidences averaged by AIExtractor._calculate_confidence:
for each schema field with an entry in field_confidences, include
the entry when the field has a non-null extracted value. -/
def ai_confidence_list (extracted : List (String × JVal))
    (fcs : List (String × ℚ)) (schema : List (String × String)) : List ℚ :=
  (schema.map Prod.fst).filterMap (fun f =>
    match alookup f fcs with
    | some conf => if ai_field_present extracted f then some conf else none
    | none => none)

/-- AIExtractor._calculate_confidence.  The source reads the
field_confidences dict out of extracted_data; here it is the second
argument, and extracted holds the remaining items (so the
k != "field_confidences" filter of the completeness fallback is
implicit). -/
def ai_calculate_confidence (extracted : List (String × JVal))
    (fcs : List (String × ℚ)) (schema : List (String × String)) : ℚ :=
  if fcs.isEmpty then
    let non_null : ℕ := (extracted.filter (fun p => ai_field_present extracted p.1)).length
    if 0 < schema.length then (non_null : ℚ) / (schema.length : ℚ) else 0
  else
    let confidences := ai_confidence_list extracted fcs schema
    if confidences.isEmpty then 0
    else
      let required := ai_required_fields extracted schema
      let populated_required : ℕ := (required.filter (ai_field_present extracted)).length
      let completeness : ℚ :=
        if required.isEmpty then 1
        else (populated_required : ℚ) / (required.length : ℚ)
      let avg : ℚ := confidences.sum / (confidences.length : ℚ)
      roundq 3 (avg * (7/10) + completeness * (3/10))

/-- The required-field set in the words of the claim: the fixed set
of six fields when any invoice-specific field is populated, and
otherwise all schema fields except priority and message. -/
def spec_ai_required_orig (extracted : List (String × JVal))
    (schema : List (String × String)) : List String :=
  if has_invoice_data extracted then
    ["invoice_number", "amount", "vat", "total_amount", "date", "client_name"]
  else
    (schema.map Prod.fst).filter (fun f => decide (f ∉ optional_fields_list))

/-- The overall-confidence formula in the words of the claim:
round(0.7 * avg + 0.3 * completeness, 3) with completeness taken
over spec_ai_required_orig. -/
def spec_ai_confidence_orig (extracted : List (String × JVal))
    (fcs : List (String × ℚ)) (schema : List (String × String)) : ℚ :=
  let confidences := ai_confidence_list extracted fcs schema
  let required := spec_ai_required_orig extracted schema
  let completeness : ℚ :=
    ((required.filter (ai_field_present extracted)).length : ℚ) /
      (required.length : ℚ)
  roundq 3 ((7/10) * (confidences.sum / (confidences.length : ℚ))
    + (3/10) * completeness)

/-- The amended required-field set: drawn from the schema fields, the
six invoice / date / client_name fields when any invoice-specific
field is populated, and otherwise all schema fields except priority,
message and the invoice-specific fields. -/
def spec_ai_required_amended (extracted : List (String × JVal))
    (schema : List (String × String)) : List String :=
  if has_invoice_data extracted then
    (schema.map Prod.fst).filter (fun f => decide (f ∈
      ["invoice_number", "amount", "vat", "total_amount", "date", "client_name"]))
  else
    (schema.map Prod.fst).filter
      (fun f => decide (f ∉ invoice_fields_list ∧ f ∉ optional_fields_list))

/-- The overall-confidence formula of the amended claim. -/
def spec_ai_confidence_amended (extracted : List (String × JVal))
    (fcs : List (String × ℚ)) (schema : List (String × String)) : ℚ :=
  let confidences := ai_confidence_list extracted fcs schema
  let required := spec_ai_required_amended extracted schema
  let completeness : ℚ :=
    ((required.filter (ai_field_present extracted)).length : ℚ) /
      (required.length : ℚ)
  roundq 3 ((7/10) * (confidences.sum / (confidences.length : ℚ))
    + (3/10) * completeness)

/-- The schema of LLMInvoiceParser. -/
def invoice_schema : List (String × String) :=
  [("invoice_number", "Invoice number in format TF-YYYY-NNN"),
   ("date", "Invoice date"),
   ("client_name", "Client or customer name"),
   ("amount", "Base amount before VAT (as a number)"),
   ("vat", "VAT amount (as a number)"),
   ("total_amount", "Total amount including VAT (as a number)")]

/-- An invoice-schema response in which only client_name is
populated (confidence 0.9): no invoice-specific field is populated,
so the completeness branch under test is the non-invoice one. -/
def c4_cex_extracted : List (String × JVal) :=
  [("invoice_number", JVal.jNull), ("date", JVal.jNull),
   ("client_name", JVal.jStr "ACME"), ("amount", JVal.jNull),
   ("vat", JVal.jNull), ("total_amount", JVal.jNull)]

def c4_cex_fcs : List (String × ℚ) := [("client_name", 9/10)]

/-- The schema of LLMFormParser. -/
def form_schema : List (String × String) :=
  [("client_name", "Full name of the client"),
   ("email", "Email address"),
   ("phone", "Phone number (Greek format)"),
   ("company", "Company or organization name"),
   ("service_interest", "Service or product of interest"),
   ("priority", "Priority level (high, medium, low)"),
   ("message", "Brief 1-2 sentence summary of the main request or message content"),
   ("date", "Submission date")]

/-- C4 counterexample: on the invoice schema with only client_name
populated (per-field confidence 0.9), the code computes completeness
over the schema fields that are neither invoice-specific nor
optional (0.78 in total), while the formula of the claim - all
schema fields except priority and message - yields 0.68, so the
claim as stated is false. -/
theorem C4_counterexample_required_set :
    ai_calculate_confidence c4_cex_extracted c4_cex_fcs invoice_schema ≠
      spec_ai_confidence_orig c4_cex_extracted c4_cex_fcs invoice_schema := by
  have h1 : ai_calculate_confidence c4_cex_extracted c4_cex_fcs invoice_schema
      = 39/50 := by
    simp [ai_calculate_confidence, ai_confidence_list, ai_required_fields,
      has_invoice_data, ai_field_present, invoice_fields_list, optional_fields_list,
      c4_cex_extracted, c4_cex_fcs, invoice_schema, alookup]
    norm_num [roundq, roundHalfEven]
  have h2 : spec_ai_confidence_orig c4_cex_extracted c4_cex_fcs invoice_schema
      = 17/25 := by
    simp [spec_ai_confidence_orig, spec_ai_required_orig, ai_confidence_list,
      has_invoice_data, ai_field_present, invoice_fields_list, optional_fields_list,
      c4_cex_extracted, c4_cex_fcs, invoice_schema, alookup]
    norm_num [roundq, roundHalfEven]
  rw [h1, h2]
  norm_num

theorem ai_confidence_list_nil_fcs (extracted : List (String × JVal))
    (schema : List (String × String)) :
    ai_confidence_list extracted [] schema = [] := by
  unfold ai_confidence_list
  rw [List.filterMap_eq_nil_iff]
  intro f hf
  simp [alookup]

theorem parse_llm_response_bare_default (data : List (String × JVal))
    (f : String) (v : JVal) (hmem : (f, v) ∈ data)
    (hnodup : (data.map Prod.fst).Nodup) (hbare : isWrappedValue v = false) :
    alookup f (parse_llm_response data).1 = some v ∧
      alookup f (parse_llm_response data).2 = some (JVal.jNum (1/2)) := by
  induction data with
  | nil => simp at hmem
  | cons hd rest ih =>
    obtain ⟨g, w⟩ := hd
    simp only [List.map_cons, List.nodup_cons] at hnodup
    rcases List.mem_cons.mp hmem with heq | hmem2
    · injection heq with h1 h2
      subst h1
      subst h2
      cases v with
      | jDict l =>
        have hv : (alookup "value" l).isSome = false := by
          simpa [isWrappedValue] using hbare
        simp [parse_llm_response, hv, alookup]
      | jNull => simp [parse_llm_response, alookup]
      | jStr s => simp [parse_llm_response, alookup]
      | jNum q => simp [parse_llm_response, alookup]
      | jBool b => simp [parse_llm_response, alookup]
      | jArr l => simp [parse_llm_response, alookup]
    · have hfg : f ≠ g := by
        intro hfg
        exact hnodup.1 (hfg ▸ (List.mem_map.mpr ⟨(f, v), hmem2, rfl⟩))
      have hih := ih hmem2 hnodup.2
      cases w with
      | jDict l =>
        by_cases hv : (alookup "value" l).isSome
        · simp only [parse_llm_response, hv, if_true]
          exact ⟨by simpa [alookup, hfg] using hih.1,
            by simpa [alookup, hfg] using hih.2⟩
        · have hv2 : (alookup "value" l).isSome = false := by
            simpa using hv
          simp only [parse_llm_response, hv2, Bool.false_eq_true, if_false]
          exact ⟨by simpa [alookup, hfg] using hih.1,
            by simpa [alookup, hfg] using hih.2⟩
      | jNull =>
        exact ⟨by simpa [parse_llm_response, alookup, hfg] using hih.1,
          by simpa [parse_llm_response, alookup, hfg] using hih.2⟩
      | jStr s =>
        exact ⟨by simpa [parse_llm_response, alookup, hfg] using hih.1,
          by simpa [parse_llm_response, alookup, hfg] using hih.2⟩
      | jNum q =>
        exact ⟨by simpa [parse_llm_response, alookup, hfg] using hih.1,
          by simpa [parse_llm_response, alookup, hfg] using hih.2⟩
      | jBool b =>
        exact ⟨by simpa [parse_llm_response, alookup, hfg] using hih.1,
          by simpa [parse_llm_response, alookup, hfg] using hih.2⟩
      | jArr l =>
        exact ⟨by simpa [parse_llm_response, alookup, hfg] using hih.1,
          by simpa [parse_llm_response, alookup, hfg] using hih.2⟩

/-- C4 (amended): whenever field confidences are present and at
least one populated schema field carries a confidence, the overall
confidence is round(0.7 * avg + 0.3 * completeness, 3), where the
average runs over the confidences of populated schema fields and
completeness is the populated fraction of the required schema
fields: the invoice-specific fields plus date and client_name when
any invoice-specific field is populated, and otherwise all schema
fields except priority, message and the invoice-specific fields;
a bare field value not wrapped in a value/confidence object is
assigned per-field confidence 0.5. -/
theorem C4_amended_confidence_formula (extracted : List (String × JVal))
    (fcs : List (String × ℚ)) (schema : List (String × String))
    (h1 : ai_confidence_list extracted fcs schema ≠ [])
    (h2 : spec_ai_required_amended extracted schema ≠ []) :
    ai_calculate_confidence extracted fcs schema =
      spec_ai_confidence_amended extracted fcs schema
    ∧ ∀ (data : List (String × JVal)) (f : String) (v : JVal),
        (f, v) ∈ data → (data.map Prod.fst).Nodup → isWrappedValue v = false →
        alookup f (parse_llm_response data).1 = some v ∧
          alookup f (parse_llm_response data).2 = some (JVal.jNum (1/2)) := by
  constructor
  · have hreq : ai_required_fields extracted schema =
        spec_ai_required_amended extracted schema := by
      unfold ai_required_fields spec_ai_required_amended
      by_cases hinv : has_invoice_data extracted
      · simp only [hinv, if_true]
        apply List.filter_congr
        intro f hf
        apply decide_eq_decide.mpr
        simp only [invoice_fields_list, List.mem_cons, List.not_mem_nil, or_false]
        tauto
      · simp only [hinv, Bool.false_eq_true, if_false]
    have hfcs : fcs.isEmpty = false := by
      cases fcs with
      | nil => exact absurd (ai_confidence_list_nil_fcs extracted schema) h1
      | cons a l => rfl
    have hconf : (ai_confidence_list extracted fcs schema).isEmpty = false := by
      cases hc : ai_confidence_list extracted fcs schema with
      | nil => exact absurd hc h1
      | cons a l => rfl
    have hreqe : (spec_ai_required_amended extracted schema).isEmpty = false := by
      cases hc : spec_ai_required_amended extracted schema with
      | nil => exact absurd hc h2
      | cons a l => rfl
    unfold ai_calculate_confidence spec_ai_confidence_amended
    rw [hreq]
    simp only [hfcs, Bool.false_eq_true, if_false, hconf, hreqe]
    congr 1
    ring
  · intro data f v hmem hnodup hbare
    exact parse_llm_response_bare_default data f v hmem hnodup hbare

/-- Witness for C4 (amended) on the form schema: client_name and
email populated with confidences 0.9 and 0.8, a bare phone value
defaulting to per-field confidence 0.5. -/
theorem C4_amended_confidence_formula_witness :
    ai_calculate_confidence
        [("client_name", JVal.jStr "Test User"), ("email", JVal.jStr "test")]
        [("client_name", 9/10), ("email", 4/5)] form_schema =
      spec_ai_confidence_amended
        [("client_name", JVal.jStr "Test User"), ("email", JVal.jStr "test")]
        [("client_name", 9/10), ("email", 4/5)] form_schema
    ∧ alookup "phone"
        (parse_llm_response [("phone", JVal.jStr "2101234567")]).2 =
      some (JVal.jNum (1/2)) := by
  have h := C4_amended_confidence_formula
    [("client_name", JVal.jStr "Test User"), ("email", JVal.jStr "test")]
    [("client_name", 9/10), ("email", 4/5)] form_schema
    (by simp [ai_confidence_list, ai_field_present, form_schema, alookup])
    (by simp [spec_ai_required_amended, has_invoice_data, ai_field_present,
      invoice_fields_list, optional_fields_list, form_schema, alookup])
  exact ⟨h.1, (h.2 [("phone", JVal.jStr "2101234567")] "phone"
    (JVal.jStr "2101234567") (by simp) (by simp) rfl).2⟩

/- ------------------------------------------------------------------
C6: InvoiceParser.validate (src/backend/app/parsers/invoice_parser.py)

InvoiceParser.parse returns a dict with exactly the keys
invoice_number, date, client_name (strings, possibly empty),
amount, vat, total_amount (floats or None); validate reads those
keys, so the dict is modelled as a typed structure.
------------------------------------------------------------------ -/

structure InvoiceData : Type where
  invoice_number : Option String
  date : Option String
  client_name : Option String
  amount : Option ℚ
  vat : Option ℚ
  total_amount : Option ℚ

/-- re.match(r"TF-\d\x7b4\x7d-\d\x7b3,\x7d", s): the string starts
with TF-, four digits, a dash and at least three digits. -/
def matchesInvoiceNumberPattern (s : String) : Bool :=
  match s.data with
  | 'T' :: 'F' :: '-' :: a :: b :: c :: d :: '-' :: e :: f :: g :: _ =>
    a.isDigit && b.isDigit && c.isDigit && d.isDigit &&
      e.isDigit && f.isDigit && g.isDigit
  | _ => false

/-- Model of Python str() on the float values that appear in the
warning messages (exact decimals of at most two places; other
rationals are rendered as fractions, a case the pipeline does not
produce). -/
def pyNumRepr (q : ℚ) : String :=
  let sign := if q < 0 then "-" else ""
  let a := q.num.natAbs
  let b := q.den
  if b = 1 then sign ++ toString a ++ ".0"
  else if 100 % b = 0 then
    let scaled := a * (100 / b)
    let ip := scaled / 100
    let fp := scaled % 100
    if fp % 10 = 0 then sign ++ toString ip ++ "." ++ toString (fp / 10)
    else sign ++ toString ip ++ "." ++ (if fp < 10 then "0" else "") ++ toString fp
  else sign ++ toString a ++ "/" ++ toString b

def vat_warning_message (vat amount expected_vat : ℚ) : String :=
  "VAT amount " ++ pyNumRepr vat ++ "€ doesn\x27t equal 24% of base amount "
    ++ pyNumRepr amount ++ "€ (expected " ++ pyNumRepr expected_vat ++ "€)"

def total_warning_message (total_amount expected_total : ℚ) : String :=
  "Total amount " ++ pyNumRepr total_amount
    ++ "€ doesn\x27t equal base + VAT (expected " ++ pyNumRepr expected_total ++ "€)"

/-- The invoice-number block of InvoiceParser.validate. -/
def invoice_number_warnings (x : Option String) : List ValidationWarning :=
  match x with
  | some s =>
    if s ≠ "" then
      if matchesInvoiceNumberPattern s then []
      else [⟨"invoice_number",
        "Invoice number format doesn\x27t match expected pattern TF-YYYY-NNN: " ++ s,
        "warning"⟩]
    else [⟨"invoice_number", "Invoice number not found", "error"⟩]
  | none => [⟨"invoice_number", "Invoice number not found", "error"⟩]

/-- The financial block of InvoiceParser.validate: when amount, vat
and total are all present, check VAT = 24% of the base amount and
total = amount + VAT within a 0.02 tolerance; otherwise report the
missing values. -/
def financial_warnings (a v t : Option ℚ) : List ValidationWarning :=
  match a, v, t with
  | some amount, some vat, some total_amount =>
    let expected_vat := roundq 2 (amount * (24/100))
    let expected_total := roundq 2 (amount + vat)
    (if 2/100 < |vat - expected_vat| then
      [⟨"vat", vat_warning_message vat amount expected_vat, "error"⟩]
    else []) ++
    (if 2/100 < |total_amount - expected_total| then
      [⟨"total_amount", total_warning_message total_amount expected_total, "error"⟩]
    else [])
  | a2, v2, t2 =>
    (match a2 with
     | none => [⟨"amount", "Base amount not found", "error"⟩]
     | some _ => []) ++
    (match v2 with
     | none => [⟨"vat", "VAT amount not found", "error"⟩]
     | some _ => []) ++
    (match t2 with
     | none => [⟨"total_amount", "Total amount not found", "error"⟩]
     | some _ => [])

/-- The client-name block of InvoiceParser.validate. -/
def client_name_warnings (x : Option String) : List ValidationWarning :=
  match x with
  | some s =>
    if s = "" then [⟨"client_name", "Client name not found", "warning"⟩] else []
  | none => [⟨"client_name", "Client name not found", "warning"⟩]

/-- The date block of InvoiceParser.validate. -/
def date_warnings (x : Option String) : List ValidationWarning :=
  match x with
  | some s =>
    if s = "" then [⟨"date", "Invoice date not found", "warning"⟩] else []
  | none => [⟨"date", "Invoice date not found", "warning"⟩]

/-- InvoiceParser.validate: the four blocks in source order. -/
def invoice_validate (d : InvoiceData) : List ValidationWarning :=
  invoice_number_warnings d.invoice_number ++
    financial_warnings d.amount d.vat d.total_amount ++
    client_name_warnings d.client_name ++
    date_warnings d.date

theorem invoice_number_warnings_field (x : Option String) (w : ValidationWarning)
    (h : w ∈ invoice_number_warnings x) : w.field = "invoice_number" := by
  unfold invoice_number_warnings at h
  cases x with
  | none => simp at h; rw [h]
  | some s =>
    by_cases hs : s ≠ ""
    · by_cases hm : matchesInvoiceNumberPattern s <;> simp [hs, hm] at h
      rw [h]
    · simp [hs] at h; rw [h]

theorem client_name_warnings_field (x : Option String) (w : ValidationWarning)
    (h : w ∈ client_name_warnings x) : w.field = "client_name" := by
  unfold client_name_warnings at h
  cases x with
  | none => simp at h; rw [h]
  | some s =>
    by_cases hs : s = "" <;> simp [hs] at h
    rw [h]

theorem date_warnings_field (x : Option String) (w : ValidationWarning)
    (h : w ∈ date_warnings x) : w.field = "date" := by
  unfold date_warnings at h
  cases x with
  | none => simp at h; rw [h]
  | some s =>
    by_cases hs : s = "" <;> simp [hs] at h
    rw [h]

/-- C6: with amount, vat and total all present, the validator emits
an error-severity VAT warning naming the expected value exactly when
|V - round(0.24 * A, 2)| > 0.02, and an error-severity total warning
naming the expected value exactly when |T - round(A + V, 2)| > 0.02;
for V = round(A * 0.24, 2) and T = round(A + V, 2) it emits no VAT-
or total-related warning at all, and when the VAT check fails it
emits exactly one VAT error. -/
theorem C6_vat_total_checks (d : InvoiceData) (A V T : ℚ)
    (ha : d.amount = some A) (hv : d.vat = some V) (ht : d.total_amount = some T) :
    ((invoice_validate d).countP
        (fun w => decide (w.field = "vat" ∧ w.severity = "error")) =
      if 2/100 < |V - roundq 2 (A * (24/100))| then 1 else 0)
    ∧ ((invoice_validate d).filter (fun w => decide (w.field = "vat")) =
        if 2/100 < |V - roundq 2 (A * (24/100))| then
          [⟨"vat", vat_warning_message V A (roundq 2 (A * (24/100))), "error"⟩]
        else [])
    ∧ ((invoice_validate d).countP
        (fun w => decide (w.field = "total_amount" ∧ w.severity = "error")) =
      if 2/100 < |T - roundq 2 (A + V)| then 1 else 0)
    ∧ ((invoice_validate d).filter (fun w => decide (w.field = "total_amount")) =
        if 2/100 < |T - roundq 2 (A + V)| then
          [⟨"total_amount", total_warning_message T (roundq 2 (A + V)), "error"⟩]
        else [])
    ∧ (V = roundq 2 (A * (24/100)) → T = roundq 2 (A + V) →
        (invoice_validate d).countP
          (fun w => decide (w.field = "vat" ∨ w.field = "total_amount")) = 0) := by
  have hfin : financial_warnings d.amount d.vat d.total_amount =
      (if 2/100 < |V - roundq 2 (A * (24/100))| then
        [⟨"vat", vat_warning_message V A (roundq 2 (A * (24/100))), "error"⟩]
      else []) ++
      (if 2/100 < |T - roundq 2 (A + V)| then
        [⟨"total_amount", total_warning_message T (roundq 2 (A + V)), "error"⟩]
      else []) := by
    rw [ha, hv, ht]
    rfl
  have hother : ∀ p : ValidationWarning → Bool,
      (∀ w : ValidationWarning, w.field = "invoice_number" → p w = false) →
      (∀ w : ValidationWarning, w.field = "client_name" → p w = false) →
      (∀ w : ValidationWarning, w.field = "date" → p w = false) →
      (invoice_validate d).countP p =
        (financial_warnings d.amount d.vat d.total_amount).countP p := by
    intro p hp1 hp2 hp3
    unfold invoice_validate
    rw [List.countP_append, List.countP_append, List.countP_append]
    have hz1 : (invoice_number_warnings d.invoice_number).countP p = 0 :=
      List.countP_eq_zero.mpr
        (fun w hw => by simp [hp1 w (invoice_number_warnings_field _ _ hw)])
    have hz2 : (client_name_warnings d.client_name).countP p = 0 :=
      List.countP_eq_zero.mpr
        (fun w hw => by simp [hp2 w (client_name_warnings_field _ _ hw)])
    have hz3 : (date_warnings d.date).countP p = 0 :=
      List.countP_eq_zero.mpr
        (fun w hw => by simp [hp3 w (date_warnings_field _ _ hw)])
    omega
  have hotherf : ∀ p : ValidationWarning → Bool,
      (∀ w : ValidationWarning, w.field = "invoice_number" → p w = false) →
      (∀ w : ValidationWarning, w.field = "client_name" → p w = false) →
      (∀ w : ValidationWarning, w.field = "date" → p w = false) →
      (invoice_validate d).filter p =
        (financial_warnings d.amount d.vat d.total_amount).filter p := by
    intro p hp1 hp2 hp3
    unfold invoice_validate
    rw [List.filter_append, List.filter_append, List.filter_append]
    have hz1 : (invoice_number_warnings d.invoice_number).filter p = [] :=
      List.filter_eq_nil_iff.mpr
        (fun w hw => by simp [hp1 w (invoice_number_warnings_field _ _ hw)])
    have hz2 : (client_name_warnings d.client_name).filter p = [] :=
      List.filter_eq_nil_iff.mpr
        (fun w hw => by simp [hp2 w (client_name_warnings_field _ _ hw)])
    have hz3 : (date_warnings d.date).filter p = [] :=
      List.filter_eq_nil_iff.mpr
        (fun w hw => by simp [hp3 w (date_warnings_field _ _ hw)])
    rw [hz1, hz2, hz3]
    simp
  refine ⟨?_, ?_, ?_, ?_, ?_⟩
  · rw [hother _ (by intro w hw; simp [hw]) (by intro w hw; simp [hw])
      (by intro w hw; simp [hw]), hfin]
    by_cases hc1 : 2/100 < |V - roundq 2 (A * (24/100))| <;>
      by_cases hc2 : 2/100 < |T - roundq 2 (A + V)| <;>
      simp [hc1, hc2, List.countP_append, List.countP_cons]
  · rw [hotherf _ (by intro w hw; simp [hw]) (by intro w hw; simp [hw])
      (by intro w hw; simp [hw]), hfin]
    by_cases hc1 : 2/100 < |V - roundq 2 (A * (24/100))| <;>
      by_cases hc2 : 2/100 < |T - roundq 2 (A + V)| <;>
      simp [hc1, hc2, List.filter_append]
  · rw [hother _ (by intro w hw; simp [hw]) (by intro w hw; simp [hw])
      (by intro w hw; simp [hw]), hfin]
    by_cases hc1 : 2/100 < |V - roundq 2 (A * (24/100))| <;>
      by_cases hc2 : 2/100 < |T - roundq 2 (A + V)| <;>
      simp [hc1, hc2, List.countP_append, List.countP_cons]
  · rw [hotherf _ (by intro w hw; simp [hw]) (by intro w hw; simp [hw])
      (by intro w hw; simp [hw]), hfin]
    by_cases hc1 : 2/100 < |V - roundq 2 (A * (24/100))| <;>
      by_cases hc2 : 2/100 < |T - roundq 2 (A + V)| <;>
      simp [hc1, hc2, List.filter_append]
  · intro hV hT
    rw [hother _ (by intro w hw; simp [hw]) (by intro w hw; simp [hw])
      (by intro w hw; simp [hw]), hfin]
    have hc1 : ¬(2/100 < |V - roundq 2 (A * (24/100))|) := by
      rw [← hV]
      simp
      norm_num
    have hc2 : ¬(2/100 < |T - roundq 2 (A + V)|) := by
      rw [← hT]
      simp
      norm_num
    simp [hc1, hc2]

/-- Witness for C6 at a concrete invoice: amount 100, VAT 30
(expected 24, off by 6) and total 130 produce exactly one VAT error
naming 24.0 as the expected value. -/
theorem C6_vat_total_checks_witness :
    (invoice_validate ⟨some "TF-2024-001", some "2024-01-15", some "ACME",
        some 100, some 30, some 130⟩).countP
      (fun w => decide (w.field = "vat" ∧ w.severity = "error")) = 1 := by
  have h := (C6_vat_total_checks ⟨some "TF-2024-001", some "2024-01-15",
    some "ACME", some 100, some 30, some 130⟩ 100 30 130 rfl rfl rfl).1
  rw [h]
  have hc : (2 : ℚ)/100 < |30 - roundq 2 (100 * (24/100))| := by
    norm_num [roundq, roundHalfEven]
  simp [hc]

/- ------------------------------------------------------------------
C7: InvoiceParser._extract_currency_value
(src/backend/app/parsers/invoice_parser.py)

The four regular expressions of the source are embedded as explicit
leftmost-search matchers over character lists.  Greedy repetition
with backtracking reduces to deterministic maximal munch for these
patterns, because a thousands group always starts with the separator
while the decimal tail starts with the other separator, and giving
back digits of a digit run never uncovers a separator.
------------------------------------------------------------------ -/

/-- One-or-more groups of (separator, three digits), consumed
maximally: the (?:,\d\x7b3\x7d)+ part of the currency patterns. -/
def matchSepGroups (sep : Char) : List Char → Option (List Char × List Char)
  | s :: a :: b :: c :: rest =>
    if s = sep && a.isDigit && b.isDigit && c.isDigit then
      match matchSepGroups sep rest with
      | some (consumed, rest2) => some (s :: a :: b :: c :: consumed, rest2)
      | none => some ([s, a, b, c], rest)
    else none
  | _ => none

/-- The greedy 1-to-3 digit heads available at a position, longest
first, with the remaining input. -/
def headChoices (cs : List Char) : List (List Char × List Char) :=
  (match cs with
   | a :: b :: c :: rest =>
     if a.isDigit && b.isDigit && c.isDigit then [([a, b, c], rest)] else []
   | _ => []) ++
  (match cs with
   | a :: b :: rest => if a.isDigit && b.isDigit then [([a, b], rest)] else []
   | _ => []) ++
  (match cs with
   | a :: rest => if a.isDigit then [([a], rest)] else []
   | _ => [])

/-- Match \d\x7b1,3\x7d(?:tsep\d\x7b3\x7d)+dsep\d\x7b2\x7d at the
start of the input (patterns 1 and 2 of the source, with
(tsep, dsep) = (",", ".") or (".", ",")). -/
def matchThousandsAt (tsep dsep : Char) (cs : List Char) : Option (List Char) :=
  (headChoices cs).findSome? (fun hc =>
    match matchSepGroups tsep hc.2 with
    | some (groups, p :: d1 :: d2 :: _) =>
      if p = dsep && d1.isDigit && d2.isDigit then
        some (hc.1 ++ groups ++ [p, d1, d2])
      else none
    | _ => none)

/-- Match \d+dsep\d\x7b2\x7d at the start of the input (patterns 3
and 4 of the source). -/
def matchSimpleAt (dsep : Char) (cs : List Char) : Option (List Char) :=
  let digits := cs.takeWhile Char.isDigit
  if digits.isEmpty then none
  else
    match cs.drop digits.length with
    | p :: d1 :: d2 :: _ =>
      if p = dsep && d1.isDigit && d2.isDigit then some (digits ++ [p, d1, d2])
      else none
    | _ => none

/-- re.search: the match at the leftmost starting position. -/
def regexSearch (m : List Char → Option (List Char)) : List Char → Option (List Char)
  | [] => none
  | c :: rest =>
    match m (c :: rest) with
    | some r => some r
    | none => regexSearch m rest

/-- The matched currency substring: the four patterns are tried in
source order on the cleaned text.  The three replace calls of the
source each erase a single character (the currency sign, spaces and
asterisks), so the cleaning is a character filter. -/
def matched_currency_substring (text : String) : Option (List Char) :=
  let cs := text.data.filter (fun c => c ≠ '€' && c ≠ ' ' && c ≠ '*')
  match regexSearch (matchThousandsAt ',' '.') cs with
  | some r => some r
  | none =>
    match regexSearch (matchThousandsAt '.' ',') cs with
    | some r => some r
    | none =>
      match regexSearch (matchSimpleAt '.') cs with
      | some r => some r
      | none => regexSearch (matchSimpleAt ',') cs

/-- The separator normalisation of the source: with both separators
present, whichever appears first is the thousands separator and is
removed (the other one becoming the decimal point); with only a
comma present, the comma is the decimal separator. -/
def normalize_value_str (value_str : List Char) : List Char :=
  if ',' ∈ value_str ∧ '.' ∈ value_str then
    if value_str.indexOf ',' < value_str.indexOf '.' then
      value_str.filter (fun c => c ≠ ',')
    else
      (value_str.filter (fun c => c ≠ '.')).map (fun c => if c = ',' then '.' else c)
  else if ',' ∈ value_str then
    value_str.map (fun c => if c = ',' then '.' else c)
  else value_str

/-- Numeric value of a digit run. -/
def natOfDigits (cs : List Char) : ℕ :=
  cs.foldl (fun acc c => acc * 10 + (c.toNat - 48)) 0

/-- float() on the normalised string (digits with at most one
decimal point); the source wraps this in try/except but the
normalised match is always a valid float literal. -/
def parseFloatDigits (cs : List Char) : Option ℚ :=
  let intPart := cs.takeWhile Char.isDigit
  if intPart.isEmpty then none
  else
    match cs.drop intPart.length with
    | [] => some (natOfDigits intPart : ℚ)
    | '.' :: frac =>
      if frac.all Char.isDigit then
        some ((natOfDigits intPart : ℚ) + (natOfDigits frac : ℚ) / 10 ^ frac.length)
      else none
    | _ => none

/-- InvoiceParser._extract_currency_value. -/
def extract_currency_value (text : String) : Option ℚ :=
  match matched_currency_substring text with
  | some value_str => parseFloatDigits (normalize_value_str value_str)
  | none => none

/-- C7: when the matched currency substring contains both separators,
the one with the smaller index is treated as the thousands separator
(removed, the other becoming the decimal point); a substring with
only a comma uses a decimal comma; and both 1,054.00 and 1.054,00
parse to the number 1054. -/
theorem C7_currency_separator_normalisation (text : String) (m : List Char)
    (hm : matched_currency_substring text = some m) :
    (',' ∈ m → '.' ∈ m → m.indexOf ',' < m.indexOf '.' →
      extract_currency_value text =
        parseFloatDigits (m.filter (fun c => c ≠ ',')))
    ∧ (',' ∈ m → '.' ∈ m → m.indexOf '.' < m.indexOf ',' →
      extract_currency_value text =
        parseFloatDigits ((m.filter (fun c => c ≠ '.')).map
          (fun c => if c = ',' then '.' else c)))
    ∧ (',' ∈ m → '.' ∉ m →
      extract_currency_value text =
        parseFloatDigits (m.map (fun c => if c = ',' then '.' else c)))
    ∧ extract_currency_value "1,054.00" = some 1054
    ∧ extract_currency_value "1.054,00" = some 1054 := by
  have hbase : extract_currency_value text =
      parseFloatDigits (normalize_value_str m) := by
    unfold extract_currency_value
    rw [hm]
  refine ⟨?_, ?_, ?_, ?_, ?_⟩
  · intro h1 h2 h3
    rw [hbase]
    unfold normalize_value_str
    simp [h1, h2, h3]
  · intro h1 h2 h3
    rw [hbase]
    unfold normalize_value_str
    rw [if_pos ⟨h1, h2⟩, if_neg (by omega)]
  · intro h1 h2
    rw [hbase]
    unfold normalize_value_str
    rw [if_neg (by simp [h2]), if_pos h1]
  · have h : matched_currency_substring "1,054.00" =
        some ['1', ',', '0', '5', '4', '.', '0', '0'] := by rfl
    unfold extract_currency_value
    rw [h]
    show parseFloatDigits
      (normalize_value_str ['1', ',', '0', '5', '4', '.', '0', '0']) = some 1054
    have h2 : normalize_value_str ['1', ',', '0', '5', '4', '.', '0', '0'] =
        ['1', '0', '5', '4', '.', '0', '0'] := by rfl
    rw [h2]
    show some ((1054 : ℚ) + 0 / 10 ^ 2) = some 1054
    norm_num
  · have h : matched_currency_substring "1.054,00" =
        some ['1', '.', '0', '5', '4', ',', '0', '0'] := by rfl
    unfold extract_currency_value
    rw [h]
    show parseFloatDigits
      (normalize_value_str ['1', '.', '0', '5', '4', ',', '0', '0']) = some 1054
    have h2 : normalize_value_str ['1', '.', '0', '5', '4', ',', '0', '0'] =
        ['1', '0', '5', '4', '.', '0', '0'] := by rfl
    rw [h2]
    show some ((1054 : ℚ) + 0 / 10 ^ 2) = some 1054
    norm_num

/-- Witness for C7: the comma of 1,054.00 appears first, so it is
removed as the thousands separator. -/
theorem C7_currency_separator_normalisation_witness :
    extract_currency_value "1,054.00" =
      parseFloatDigits ['1', '0', '5', '4', '.', '0', '0'] := by
  have h := (C7_currency_separator_normalisation "1,054.00"
    ['1', ',', '0', '5', '4', '.', '0', '0'] rfl).1
    (by decide) (by decide) (by decide)
  simpa using h

/- ------------------------------------------------------------------
C8: normalize_date (src/backend/app/parsers/utils.py)

datetime.strptime is embedded per format directive with the digit
patterns of CPython (%Y exactly four digits; %d, %m, %H, %M, %S one
or two digits within their ranges, two digits preferred with
backtracking through the continuation), full-input consumption, and
the calendar validation of the datetime constructor.  Whitespace in
a format matches one or more whitespace characters.
------------------------------------------------------------------ -/

/-- Numeric value of a digit character. -/
def dval (c : Char) : ℕ := c.toNat - 48

/-- One literal character. -/
def lit (c : Char) : List Char → Option (List Char)
  | x :: rest => if x = c then some rest else none
  | [] => none

/-- The %Y directive: exactly four digits. -/
def pYear4 : List Char → Option (ℕ × List Char)
  | a :: b :: c :: d :: rest =>
    if a.isDigit && b.isDigit && c.isDigit && d.isDigit then
      some (((dval a * 10 + dval b) * 10 + dval c) * 10 + dval d, rest)
    else none
  | _ => none

/-- A one-or-two digit directive: two digits in [lo2, hi2] preferred,
one digit in [lo1, hi1] tried when the rest of the format fails
after a two-digit read (regex backtracking, in continuation style).
%d = (1,31,1,9), %m = (1,12,1,9), %H = (0,23,0,9),
%M = (0,59,0,9), %S = (0,61,0,9). -/
def pNum2or1 {α : Type} (lo2 hi2 lo1 hi1 : ℕ) (cs : List Char)
    (k : ℕ → List Char → Option α) : Option α :=
  let two : Option α :=
    match cs with
    | a :: b :: rest =>
      if a.isDigit && b.isDigit && decide (lo2 ≤ dval a * 10 + dval b)
          && decide (dval a * 10 + dval b ≤ hi2) then
        k (dval a * 10 + dval b) rest
      else none
    | _ => none
  match two with
  | some r => some r
  | none =>
    match cs with
    | a :: rest =>
      if a.isDigit && decide (lo1 ≤ dval a) && decide (dval a ≤ hi1) then
        k (dval a) rest
      else none
    | _ => none

/-- Gregorian leap year. -/
def isLeapYear (y : ℕ) : Bool := y % 4 = 0 && (y % 100 ≠ 0 || y % 400 = 0)

/-- Days in a month. -/
def daysInMonth (y m : ℕ) : ℕ :=
  if m = 2 then (if isLeapYear y then 29 else 28)
  else if m = 4 ∨ m = 6 ∨ m = 9 ∨ m = 11 then 30
  else 31

/-- The validation of the datetime constructor on top of a raw
strptime match: MINYEAR is 1 and the day must fit the month. -/
def mkDate (r : Option (ℕ × ℕ × ℕ)) : Option (ℕ × ℕ × ℕ) :=
  match r with
  | some (y, m, d) => if 1 ≤ y ∧ 1 ≤ d ∧ d ≤ daysInMonth y m then some (y, m, d) else none
  | none => none

/-- strptime(s, "%Y-%m-%dT%H:%M") up to the datetime construction. -/
def parse_fmt_isoT (cs : List Char) : Option (ℕ × ℕ × ℕ) :=
  match pYear4 cs with
  | some (y, rest) =>
    match lit '-' rest with
    | some rest2 =>
      pNum2or1 1 12 1 9 rest2 (fun m rest3 =>
        match lit '-' rest3 with
        | some rest4 =>
          pNum2or1 1 31 1 9 rest4 (fun d rest5 =>
            match lit 'T' rest5 with
            | some rest6 =>
              pNum2or1 0 23 0 9 rest6 (fun _ rest7 =>
                match lit ':' rest7 with
                | some rest8 =>
                  pNum2or1 0 59 0 9 rest8 (fun _ rest9 =>
                    if rest9.isEmpty then some (y, m, d) else none)
                | none => none)
            | none => none)
        | none => none)
    | none => none
  | none => none

/-- strptime(s, "%Y-%m-%d"). -/
def parse_fmt_iso (cs : List Char) : Option (ℕ × ℕ × ℕ) :=
  match pYear4 cs with
  | some (y, rest) =>
    match lit '-' rest with
    | some rest2 =>
      pNum2or1 1 12 1 9 rest2 (fun m rest3 =>
        match lit '-' rest3 with
        | some rest4 =>
          pNum2or1 1 31 1 9 rest4 (fun d rest5 =>
            if rest5.isEmpty then some (y, m, d) else none)
        | none => none)
    | none => none
  | none => none

/-- strptime(s, "%d/%m/%Y"). -/
def parse_fmt_dmy_slash (cs : List Char) : Option (ℕ × ℕ × ℕ) :=
  pNum2or1 1 31 1 9 cs (fun d rest =>
    match lit '/' rest with
    | some rest2 =>
      pNum2or1 1 12 1 9 rest2 (fun m rest3 =>
        match lit '/' rest3 with
        | some rest4 =>
          match pYear4 rest4 with
          | some (y, rest5) => if rest5.isEmpty then some (y, m, d) else none
          | none => none
        | none => none)
    | none => none)

/-- strptime(s, "%d-%m-%Y"). -/
def parse_fmt_dmy_dash (cs : List Char) : Option (ℕ × ℕ × ℕ) :=
  pNum2or1 1 31 1 9 cs (fun d rest =>
    match lit '-' rest with
    | some rest2 =>
      pNum2or1 1 12 1 9 rest2 (fun m rest3 =>
        match lit '-' rest3 with
        | some rest4 =>
          match pYear4 rest4 with
          | some (y, rest5) => if rest5.isEmpty then some (y, m, d) else none
          | none => none
        | none => none)
    | none => none)

/-- strptime(s, "%Y/%m/%d"). -/
def parse_fmt_ymd_slash (cs : List Char) : Option (ℕ × ℕ × ℕ) :=
  match pYear4 cs with
  | some (y, rest) =>
    match lit '/' rest with
    | some rest2 =>
      pNum2or1 1 12 1 9 rest2 (fun m rest3 =>
        match lit '/' rest3 with
        | some rest4 =>
          pNum2or1 1 31 1 9 rest4 (fun d rest5 =>
            if rest5.isEmpty then some (y, m, d) else none)
        | none => none)
    | none => none
  | none => none

/-- Whitespace in the sense of the Python \s class. -/
def isPySpace (c : Char) : Bool :=
  c = ' ' || c = '\t' || c = '\n' || c = '\x0b' || c = '\x0c' || c = '\r'

/-- One-or-more whitespace characters (a blank inside a strptime
format). -/
def pSpaces : List Char → Option (List Char)
  | c :: rest => if isPySpace c then some (rest.dropWhile isPySpace) else none
  | [] => none

def weekday_abbrevs : List (List Char) :=
  [['m', 'o', 'n'], ['t', 'u', 'e'], ['w', 'e', 'd'], ['t', 'h', 'u'],
   ['f', 'r', 'i'], ['s', 'a', 't'], ['s', 'u', 'n']]

def month_abbrevs : List (List Char) :=
  [['j', 'a', 'n'], ['f', 'e', 'b'], ['m', 'a', 'r'], ['a', 'p', 'r'],
   ['m', 'a', 'y'], ['j', 'u', 'n'], ['j', 'u', 'l'], ['a', 'u', 'g'],
   ['s', 'e', 'p'], ['o', 'c', 't'], ['n', 'o', 'v'], ['d', 'e', 'c']]

/-- The %a directive: a case-insensitive three-letter weekday name
(the parsed weekday is not used and not cross-checked against the
date, as in CPython). -/
def pWeekday : List Char → Option (List Char)
  | a :: b :: c :: rest =>
    if [a.toLower, b.toLower, c.toLower] ∈ weekday_abbrevs then some rest else none
  | _ => none

/-- The %b directive: a case-insensitive three-letter month name. -/
def pMonthAbbrev : List Char → Option (ℕ × List Char)
  | a :: b :: c :: rest =>
    match month_abbrevs.indexOf? [a.toLower, b.toLower, c.toLower] with
    | some i => some (i + 1, rest)
    | none => none
  | _ => none

/-- strptime(s, "%a, %d %b %Y %H:%M:%S"), with the seconds bound of
the datetime constructor (a parsed leap second 60 or 61 raises and
so fails the format). -/
def parse_fmt_rfc (cs : List Char) : Option (ℕ × ℕ × ℕ) :=
  match pWeekday cs with
  | some rest =>
    match lit ',' rest with
    | some rest2 =>
      match pSpaces rest2 with
      | some rest3 =>
        pNum2or1 1 31 1 9 rest3 (fun d rest4 =>
          match pSpaces rest4 with
          | some rest5 =>
            match pMonthAbbrev rest5 with
            | some (m, rest6) =>
              match pSpaces rest6 with
              | some rest7 =>
                match pYear4 rest7 with
                | some (y, rest8) =>
                  match pSpaces rest8 with
                  | some rest9 =>
                    pNum2or1 0 23 0 9 rest9 (fun _ rest10 =>
                      match lit ':' rest10 with
                      | some rest11 =>
                        pNum2or1 0 59 0 9 rest11 (fun _ rest12 =>
                          match lit ':' rest12 with
                          | some rest13 =>
                            pNum2or1 0 61 0 9 rest13 (fun s rest14 =>
                              if rest14.isEmpty ∧ s ≤ 59 then some (y, m, d)
                              else none)
                          | none => none)
                      | none => none)
                  | none => none
                | none => none
              | none => none
            | none => none
          | none => none)
      | none => none
    | none => none
  | none => none

/-- re.sub(r"\s*[+-]\d\x7b4\x7d$", "", s): strip a trailing
timezone offset. -/
def stripTz (cs : List Char) : List Char :=
  match cs.reverse with
  | d1 :: d2 :: d3 :: d4 :: sgn :: rest =>
    if d1.isDigit && d2.isDigit && d3.isDigit && d4.isDigit &&
        (sgn = '+' || sgn = '-') then
      (rest.dropWhile isPySpace).reverse
    else cs
  | _ => cs

/-- strftime("%Y-%m-%d") zero-padding (two digits). -/
def pad2str (n : ℕ) : List Char :=
  [Nat.digitChar (n / 10 % 10), Nat.digitChar (n % 10)]

/-- strftime("%Y-%m-%d") zero-padding (four digits). -/
def pad4str (n : ℕ) : List Char :=
  [Nat.digitChar (n / 1000 % 10), Nat.digitChar (n / 100 % 10),
   Nat.digitChar (n / 10 % 10), Nat.digitChar (n % 10)]

/-- dt.strftime("%Y-%m-%d"). -/
def formatYMD (y m d : ℕ) : String :=
  String.mk (pad4str y ++ '-' :: (pad2str m ++ '-' :: pad2str d))

/-- The format loop of normalize_date: the five explicit formats in
order, then the RFC 2822 email format on the input with a trailing
timezone stripped; each successful strptime goes through the
datetime constructor (mkDate) and is rendered as YYYY-MM-DD. -/
def normalize_core (cs : List Char) : Option String :=
  match mkDate (parse_fmt_isoT cs) with
    | some (y, m, d) => some (formatYMD y m d)
    | none =>
      match mkDate (parse_fmt_iso cs) with
      | some (y, m, d) => some (formatYMD y m d)
      | none =>
        match mkDate (parse_fmt_dmy_slash cs) with
        | some (y, m, d) => some (formatYMD y m d)
        | none =>
          match mkDate (parse_fmt_dmy_dash cs) with
          | some (y, m, d) => some (formatYMD y m d)
          | none =>
            match mkDate (parse_fmt_ymd_slash cs) with
            | some (y, m, d) => some (formatYMD y m d)
            | none =>
              match mkDate (parse_fmt_rfc (stripTz cs)) with
              | some (y, m, d) => some (formatYMD y m d)
              | none => none

/-- normalize_date: the empty string is falsy and yields None,
otherwise the format loop runs; when every format fails the result
is None (and the Lean model is total: no exception escapes). -/
def normalize_date (s : String) : Option String :=
  if s = "" then none else normalize_core s.data

theorem digitChar_isDigit_of_lt {n : ℕ} (h : n < 10) :
    (Nat.digitChar n).isDigit = true := by
  interval_cases n <;> decide

theorem dval_digitChar_of_lt {n : ℕ} (h : n < 10) : dval (Nat.digitChar n) = n := by
  interval_cases n <;> decide

theorem isDigit_digitChar_mod (n : ℕ) : (Nat.digitChar (n % 10)).isDigit = true :=
  digitChar_isDigit_of_lt (Nat.mod_lt _ (by norm_num))

theorem dval_digitChar_mod (n : ℕ) : dval (Nat.digitChar (n % 10)) = n % 10 :=
  dval_digitChar_of_lt (Nat.mod_lt _ (by norm_num))

theorem digitChar_mod_ne (n : ℕ) {c : Char} (hc : c.isDigit = false) :
    (Nat.digitChar (n % 10) = c) = False := by
  simp only [eq_iff_iff, iff_false]
  intro he
  rw [← he, isDigit_digitChar_mod n] at hc
  exact Bool.noConfusion hc

theorem isPySpace_digitChar_mod (n : ℕ) :
    isPySpace (Nat.digitChar (n % 10)) = false := by
  have h : n % 10 < 10 := Nat.mod_lt _ (by norm_num)
  generalize hk : n % 10 = k at h
  interval_cases k <;> decide

theorem lit_cons_self (c : Char) (rest : List Char) : lit c (c :: rest) = some rest := by
  simp [lit]

theorem lit_cons_ne {x c : Char} (h : (x = c) = False) (rest : List Char) :
    lit c (x :: rest) = none := by
  simp [lit, h]

theorem pYear4_pad4 (y : ℕ) (rest : List Char) (hy : y ≤ 9999) :
    pYear4 (pad4str y ++ rest) = some (y, rest) := by
  have hval : ((y / 1000 % 10 * 10 + y / 100 % 10) * 10 + y / 10 % 10) * 10 + y % 10
      = y := by omega
  simp [pad4str, pYear4, isDigit_digitChar_mod, dval_digitChar_mod, hval]

theorem pYear4_third_nondigit (a b c : Char) (rest : List Char)
    (h : c.isDigit = false) : pYear4 (a :: b :: c :: rest) = none := by
  cases rest <;> simp [pYear4, h]

theorem pYear4_head_nondigit {a : Char} (rest : List Char) (h : a.isDigit = false) :
    pYear4 (a :: rest) = none := by
  rcases rest with _ | ⟨b, _ | ⟨c, _ | ⟨d, rest2⟩⟩⟩ <;> simp [pYear4, h]

theorem pNum2or1_pad2_success {α : Type} (lo2 hi2 lo1 hi1 v : ℕ) (rest : List Char)
    (k : ℕ → List Char → Option α) (out : α) (h1 : lo2 ≤ v) (h2 : v ≤ hi2)
    (h99 : v ≤ 99) (hk : k v rest = some out) :
    pNum2or1 lo2 hi2 lo1 hi1 (pad2str v ++ rest) k = some out := by
  have hv : dval (Nat.digitChar (v / 10 % 10)) * 10 + dval (Nat.digitChar (v % 10))
      = v := by
    rw [dval_digitChar_mod, dval_digitChar_mod]
    omega
  simp [pad2str, pNum2or1, isDigit_digitChar_mod, hv, h1, h2, hk]

theorem pNum2or1_head_nondigit {α : Type} (lo2 hi2 lo1 hi1 : ℕ) {a : Char}
    (rest : List Char) (k : ℕ → List Char → Option α) (h : a.isDigit = false) :
    pNum2or1 lo2 hi2 lo1 hi1 (a :: rest) k = none := by
  cases rest <;> simp [pNum2or1, h]

theorem pSpaces_single {c : Char} (rest : List Char) (h : isPySpace c = false) :
    pSpaces (' ' :: c :: rest) = some (c :: rest) := by
  simp [pSpaces, List.dropWhile, h, show isPySpace ' ' = true from by decide]

theorem daysInMonth_le_31 (y m : ℕ) : daysInMonth y m ≤ 31 := by
  unfold daysInMonth
  split_ifs <;> omega

theorem parse_isoT_render (y m d hh mi : ℕ) (hy2 : y ≤ 9999) (hm1 : 1 ≤ m)
    (hm2 : m ≤ 12) (hd1 : 1 ≤ d) (hd2 : d ≤ 31) (hh2 : hh ≤ 23) (hmi : mi ≤ 59) :
    parse_fmt_isoT (pad4str y ++ '-' :: (pad2str m ++ '-' :: (pad2str d ++ 'T' ::
      (pad2str hh ++ ':' :: pad2str mi)))) = some (y, m, d) := by
  unfold parse_fmt_isoT
  rw [pYear4_pad4 y _ hy2]
  simp only [lit_cons_self]
  exact pNum2or1_pad2_success 1 12 1 9 m _ _ (y, m, d) hm1 hm2 (by omega) (by
    simp only [lit_cons_self]
    exact pNum2or1_pad2_success 1 31 1 9 d _ _ (y, m, d) hd1 hd2 (by omega) (by
      simp only [lit_cons_self]
      exact pNum2or1_pad2_success 0 23 0 9 hh _ _ (y, m, d) (by omega) hh2 (by omega)
        (by
          simp only [lit_cons_self]
          exact pNum2or1_pad2_success 0 59 0 9 mi _ _ (y, m, d) (by omega) hmi
            (by omega) rfl)))

theorem parse_iso_render (y m d : ℕ) (hy2 : y ≤ 9999) (hm1 : 1 ≤ m)
    (hm2 : m ≤ 12) (hd1 : 1 ≤ d) (hd2 : d ≤ 31) :
    parse_fmt_iso (pad4str y ++ '-' :: (pad2str m ++ '-' :: pad2str d)) =
      some (y, m, d) := by
  unfold parse_fmt_iso
  rw [pYear4_pad4 y _ hy2]
  simp only [lit_cons_self]
  exact pNum2or1_pad2_success 1 12 1 9 m _ _ (y, m, d) hm1 hm2 (by omega) (by
    simp only [lit_cons_self]
    exact pNum2or1_pad2_success 1 31 1 9 d _ _ (y, m, d) hd1 hd2 (by omega) rfl)

theorem parse_dmy_slash_render (y m d : ℕ) (hy2 : y ≤ 9999) (hm1 : 1 ≤ m)
    (hm2 : m ≤ 12) (hd1 : 1 ≤ d) (hd2 : d ≤ 31) :
    parse_fmt_dmy_slash (pad2str d ++ '/' :: (pad2str m ++ '/' :: pad4str y)) =
      some (y, m, d) := by
  unfold parse_fmt_dmy_slash
  exact pNum2or1_pad2_success 1 31 1 9 d _ _ (y, m, d) hd1 hd2 (by omega) (by
    simp only [lit_cons_self]
    exact pNum2or1_pad2_success 1 12 1 9 m _ _ (y, m, d) hm1 hm2 (by omega) (by
      simp only [lit_cons_self]
      rw [show pad4str y = pad4str y ++ [] from (List.append_nil _).symm,
        pYear4_pad4 y _ hy2]
      rfl))

theorem parse_dmy_dash_render (y m d : ℕ) (hy2 : y ≤ 9999) (hm1 : 1 ≤ m)
    (hm2 : m ≤ 12) (hd1 : 1 ≤ d) (hd2 : d ≤ 31) :
    parse_fmt_dmy_dash (pad2str d ++ '-' :: (pad2str m ++ '-' :: pad4str y)) =
      some (y, m, d) := by
  unfold parse_fmt_dmy_dash
  exact pNum2or1_pad2_success 1 31 1 9 d _ _ (y, m, d) hd1 hd2 (by omega) (by
    simp only [lit_cons_self]
    exact pNum2or1_pad2_success 1 12 1 9 m _ _ (y, m, d) hm1 hm2 (by omega) (by
      simp only [lit_cons_self]
      rw [show pad4str y = pad4str y ++ [] from (List.append_nil _).symm,
        pYear4_pad4 y _ hy2]
      rfl))

theorem parse_ymd_slash_render (y m d : ℕ) (hy2 : y ≤ 9999) (hm1 : 1 ≤ m)
    (hm2 : m ≤ 12) (hd1 : 1 ≤ d) (hd2 : d ≤ 31) :
    parse_fmt_ymd_slash (pad4str y ++ '/' :: (pad2str m ++ '/' :: pad2str d)) =
      some (y, m, d) := by
  unfold parse_fmt_ymd_slash
  rw [pYear4_pad4 y _ hy2]
  simp only [lit_cons_self]
  exact pNum2or1_pad2_success 1 12 1 9 m _ _ (y, m, d) hm1 hm2 (by omega) (by
    simp only [lit_cons_self]
    exact pNum2or1_pad2_success 1 31 1 9 d _ _ (y, m, d) hd1 hd2 (by omega) rfl)

theorem lit_nil (c : Char) : lit c [] = none := rfl

theorem parse_dmy_slash_fail_two_digits (n1 n2 : ℕ) (c : Char) (R : List Char)
    (hc : (c = '/') = False) :
    parse_fmt_dmy_slash
      (Nat.digitChar (n1 % 10) :: Nat.digitChar (n2 % 10) :: c :: R) = none := by
  have hd2 : ∀ n : ℕ, (Nat.digitChar (n % 10) = '/') = False :=
    fun n => digitChar_mod_ne n (by decide)
  simp [parse_fmt_dmy_slash, pNum2or1, lit, hc, hd2]

theorem parse_dmy_dash_fail_two_digits (n1 n2 : ℕ) (c : Char) (R : List Char)
    (hc : (c = '-') = False) :
    parse_fmt_dmy_dash
      (Nat.digitChar (n1 % 10) :: Nat.digitChar (n2 % 10) :: c :: R) = none := by
  have hd2 : ∀ n : ℕ, (Nat.digitChar (n % 10) = '-') = False :=
    fun n => digitChar_mod_ne n (by decide)
  simp [parse_fmt_dmy_dash, pNum2or1, lit, hc, hd2]

theorem parse_isoT_of_pYear4_none {cs : List Char} (h : pYear4 cs = none) :
    parse_fmt_isoT cs = none := by
  unfold parse_fmt_isoT
  rw [h]

theorem parse_iso_of_pYear4_none {cs : List Char} (h : pYear4 cs = none) :
    parse_fmt_iso cs = none := by
  unfold parse_fmt_iso
  rw [h]

theorem parse_ymd_slash_of_pYear4_none {cs : List Char} (h : pYear4 cs = none) :
    parse_fmt_ymd_slash cs = none := by
  unfold parse_fmt_ymd_slash
  rw [h]

theorem parse_isoT_fail_iso_shape (y m d : ℕ) (hy2 : y ≤ 9999) :
    parse_fmt_isoT (pad4str y ++ '-' :: (pad2str m ++ '-' :: pad2str d)) = none := by
  have hT : ∀ n : ℕ, (Nat.digitChar (n % 10) = 'T') = False :=
    fun n => digitChar_mod_ne n (by decide)
  have hD : ∀ n : ℕ, (Nat.digitChar (n % 10) = '-') = False :=
    fun n => digitChar_mod_ne n (by decide)
  unfold parse_fmt_isoT
  rw [pYear4_pad4 y _ hy2]
  simp only [lit_cons_self]
  simp [pad2str, pNum2or1, lit, hT, hD, isDigit_digitChar_mod]

theorem parse_isoT_fail_year_then_slash (y : ℕ) (R : List Char) (hy2 : y ≤ 9999) :
    parse_fmt_isoT (pad4str y ++ '/' :: R) = none := by
  unfold parse_fmt_isoT
  rw [pYear4_pad4 y _ hy2]
  simp only [lit_cons_ne (show (('/' : Char) = '-') = False by decide)]

theorem parse_iso_fail_year_then_slash (y : ℕ) (R : List Char) (hy2 : y ≤ 9999) :
    parse_fmt_iso (pad4str y ++ '/' :: R) = none := by
  unfold parse_fmt_iso
  rw [pYear4_pad4 y _ hy2]
  simp only [lit_cons_ne (show (('/' : Char) = '-') = False by decide)]

theorem string_mk_cons_ne_empty (c : Char) (l : List Char) :
    (String.mk (c :: l) = "") = False := by
  simp [String.ext_iff]

theorem normalize_date_ne_nil {l : List Char} (h : l ≠ []) :
    normalize_date (String.mk l) = normalize_core l := by
  have hne : ¬(String.mk l = "") := by
    simpa [String.ext_iff] using h
  unfold normalize_date
  rw [if_neg hne]

theorem normalize_isoT_format (y m d hh mi : ℕ) (hy1 : 1000 ≤ y) (hy2 : y ≤ 9999)
    (hm1 : 1 ≤ m) (hm2 : m ≤ 12) (hd1 : 1 ≤ d) (hd2 : d ≤ daysInMonth y m)
    (hh2 : hh ≤ 23) (hmi : mi ≤ 59) :
    normalize_date (String.mk (pad4str y ++ '-' :: (pad2str m ++ '-' ::
      (pad2str d ++ 'T' :: (pad2str hh ++ ':' :: pad2str mi))))) =
      some (formatYMD y m d) := by
  have hd31 : d ≤ 31 := le_trans hd2 (daysInMonth_le_31 y m)
  have hy0 : 1 ≤ y := by omega
  rw [normalize_date_ne_nil (by simp [pad4str])]
  unfold normalize_core
  rw [parse_isoT_render y m d hh mi hy2 hm1 hm2 hd1 hd31 hh2 hmi]
  simp [mkDate, hy0, hd1, hd2]

theorem normalize_iso_format (y m d : ℕ) (hy1 : 1000 ≤ y) (hy2 : y ≤ 9999)
    (hm1 : 1 ≤ m) (hm2 : m ≤ 12) (hd1 : 1 ≤ d) (hd2 : d ≤ daysInMonth y m) :
    normalize_date (String.mk (pad4str y ++ '-' :: (pad2str m ++ '-' :: pad2str d)))
      = some (formatYMD y m d) := by
  have hd31 : d ≤ 31 := le_trans hd2 (daysInMonth_le_31 y m)
  have hy0 : 1 ≤ y := by omega
  rw [normalize_date_ne_nil (by simp [pad4str])]
  unfold normalize_core
  rw [parse_isoT_fail_iso_shape y m d hy2,
    parse_iso_render y m d hy2 hm1 hm2 hd1 hd31]
  simp [mkDate, hy0, hd1, hd2]

theorem normalize_dmy_slash_format (y m d : ℕ) (hy1 : 1000 ≤ y) (hy2 : y ≤ 9999)
    (hm1 : 1 ≤ m) (hm2 : m ≤ 12) (hd1 : 1 ≤ d) (hd2 : d ≤ daysInMonth y m) :
    normalize_date (String.mk (pad2str d ++ '/' :: (pad2str m ++ '/' :: pad4str y)))
      = some (formatYMD y m d) := by
  have hd31 : d ≤ 31 := le_trans hd2 (daysInMonth_le_31 y m)
  have hy0 : 1 ≤ y := by omega
  rw [normalize_date_ne_nil (by simp [pad2str])]
  unfold normalize_core
  have hf1 : parse_fmt_isoT (pad2str d ++ '/' :: (pad2str m ++ '/' :: pad4str y))
      = none :=
    parse_isoT_of_pYear4_none (pYear4_third_nondigit _ _ '/' _ (by decide))
  have hf2 : parse_fmt_iso (pad2str d ++ '/' :: (pad2str m ++ '/' :: pad4str y))
      = none :=
    parse_iso_of_pYear4_none (pYear4_third_nondigit _ _ '/' _ (by decide))
  rw [hf1, hf2, parse_dmy_slash_render y m d hy2 hm1 hm2 hd1 hd31]
  simp [mkDate, hy0, hd1, hd2]

theorem normalize_dmy_dash_format (y m d : ℕ) (hy1 : 1000 ≤ y) (hy2 : y ≤ 9999)
    (hm1 : 1 ≤ m) (hm2 : m ≤ 12) (hd1 : 1 ≤ d) (hd2 : d ≤ daysInMonth y m) :
    normalize_date (String.mk (pad2str d ++ '-' :: (pad2str m ++ '-' :: pad4str y)))
      = some (formatYMD y m d) := by
  have hd31 : d ≤ 31 := le_trans hd2 (daysInMonth_le_31 y m)
  have hy0 : 1 ≤ y := by omega
  rw [normalize_date_ne_nil (by simp [pad2str])]
  unfold normalize_core
  have hf1 : parse_fmt_isoT (pad2str d ++ '-' :: (pad2str m ++ '-' :: pad4str y))
      = none :=
    parse_isoT_of_pYear4_none (pYear4_third_nondigit _ _ '-' _ (by decide))
  have hf2 : parse_fmt_iso (pad2str d ++ '-' :: (pad2str m ++ '-' :: pad4str y))
      = none :=
    parse_iso_of_pYear4_none (pYear4_third_nondigit _ _ '-' _ (by decide))
  have hf3 : parse_fmt_dmy_slash
      (pad2str d ++ '-' :: (pad2str m ++ '-' :: pad4str y)) = none :=
    parse_dmy_slash_fail_two_digits (d / 10) d '-' _ (by decide)
  rw [hf1, hf2, hf3, parse_dmy_dash_render y m d hy2 hm1 hm2 hd1 hd31]
  simp [mkDate, hy0, hd1, hd2]

theorem normalize_ymd_slash_format (y m d : ℕ) (hy1 : 1000 ≤ y) (hy2 : y ≤ 9999)
    (hm1 : 1 ≤ m) (hm2 : m ≤ 12) (hd1 : 1 ≤ d) (hd2 : d ≤ daysInMonth y m) :
    normalize_date (String.mk (pad4str y ++ '/' :: (pad2str m ++ '/' :: pad2str d)))
      = some (formatYMD y m d) := by
  have hd31 : d ≤ 31 := le_trans hd2 (daysInMonth_le_31 y m)
  have hy0 : 1 ≤ y := by omega
  rw [normalize_date_ne_nil (by simp [pad4str])]
  unfold normalize_core
  have hf3 : parse_fmt_dmy_slash
      (pad4str y ++ '/' :: (pad2str m ++ '/' :: pad2str d)) = none :=
    parse_dmy_slash_fail_two_digits (y / 1000) (y / 100)
      (Nat.digitChar (y / 10 % 10)) _ (digitChar_mod_ne (y / 10) (by decide))
  have hf4 : parse_fmt_dmy_dash
      (pad4str y ++ '/' :: (pad2str m ++ '/' :: pad2str d)) = none :=
    parse_dmy_dash_fail_two_digits (y / 1000) (y / 100)
      (Nat.digitChar (y / 10 % 10)) _ (digitChar_mod_ne (y / 10) (by decide))
  rw [parse_isoT_fail_year_then_slash y _ hy2, parse_iso_fail_year_then_slash y _ hy2,
    hf3, hf4, parse_ymd_slash_render y m d hy2 hm1 hm2 hd1 hd31]
  simp [mkDate, hy0, hd1, hd2]

def weekday_caps : List (List Char) :=
  [['M', 'o', 'n'], ['T', 'u', 'e'], ['W', 'e', 'd'], ['T', 'h', 'u'],
   ['F', 'r', 'i'], ['S', 'a', 't'], ['S', 'u', 'n']]

def month_caps : List (List Char) :=
  [['J', 'a', 'n'], ['F', 'e', 'b'], ['M', 'a', 'r'], ['A', 'p', 'r'],
   ['M', 'a', 'y'], ['J', 'u', 'n'], ['J', 'u', 'l'], ['A', 'u', 'g'],
   ['S', 'e', 'p'], ['O', 'c', 't'], ['N', 'o', 'v'], ['D', 'e', 'c']]

theorem stripTz_drop_tz (xs : List Char) (cl : Char) (hcl : isPySpace cl = false)
    (sgn : Char) (hsgn : sgn = '+' ∨ sgn = '-') (t1 t2 t3 t4 : Char)
    (h1 : t1.isDigit = true) (h2 : t2.isDigit = true) (h3 : t3.isDigit = true)
    (h4 : t4.isDigit = true) :
    stripTz ((xs ++ [cl]) ++ ' ' :: sgn :: [t1, t2, t3, t4]) = xs ++ [cl] := by
  unfold stripTz
  have hrev : ((xs ++ [cl]) ++ ' ' :: sgn :: [t1, t2, t3, t4]).reverse
      = t4 :: t3 :: t2 :: t1 :: sgn :: ' ' :: cl :: xs.reverse := by
    simp
  rw [hrev]
  rcases hsgn with h | h <;> subst h <;>
    simp [h1, h2, h3, h4, List.dropWhile, hcl,
      show isPySpace ' ' = true from by decide]

theorem parse_rfc_render (a b c : Char) (mn : List Char) (d m y hh mi ss : ℕ)
    (hwl : [a.toLower, b.toLower, c.toLower] ∈ weekday_abbrevs)
    (hpm : ∀ rest : List Char, pMonthAbbrev (mn ++ rest) = some (m, rest))
    (hsp : ∀ X : List Char, pSpaces (' ' :: (mn ++ X)) = some (mn ++ X))
    (hy2 : y ≤ 9999) (hd1 : 1 ≤ d) (hd2 : d ≤ 31) (hh2 : hh ≤ 23) (hmi : mi ≤ 59)
    (hss : ss ≤ 59) :
    parse_fmt_rfc ([a, b, c] ++ ',' :: ' ' :: (pad2str d ++ ' ' :: (mn ++ ' ' ::
      (pad4str y ++ ' ' :: (pad2str hh ++ ':' :: (pad2str mi ++ ':' ::
        pad2str ss)))))) = some (y, m, d) := by
  unfold parse_fmt_rfc
  have hpw : pWeekday ([a, b, c] ++ ',' :: ' ' :: (pad2str d ++ ' ' :: (mn ++ ' ' ::
      (pad4str y ++ ' ' :: (pad2str hh ++ ':' :: (pad2str mi ++ ':' ::
        pad2str ss)))))) = some (',' :: ' ' :: (pad2str d ++ ' ' :: (mn ++ ' ' ::
      (pad4str y ++ ' ' :: (pad2str hh ++ ':' :: (pad2str mi ++ ':' ::
        pad2str ss)))))) := by
    simp [pWeekday, hwl]
  rw [hpw]
  simp only [lit_cons_self]
  have hsp1 : pSpaces (' ' :: (pad2str d ++ ' ' :: (mn ++ ' ' ::
      (pad4str y ++ ' ' :: (pad2str hh ++ ':' :: (pad2str mi ++ ':' ::
        pad2str ss)))))) = some (pad2str d ++ ' ' :: (mn ++ ' ' ::
      (pad4str y ++ ' ' :: (pad2str hh ++ ':' :: (pad2str mi ++ ':' ::
        pad2str ss))))) :=
    pSpaces_single _ (isPySpace_digitChar_mod (d / 10))
  simp only [hsp1]
  exact pNum2or1_pad2_success 1 31 1 9 d _ _ (y, m, d) hd1 hd2 (by omega) (by
    simp only [hsp, hpm]
    have hsp2 : pSpaces (' ' :: (pad4str y ++ ' ' :: (pad2str hh ++ ':' ::
        (pad2str mi ++ ':' :: pad2str ss)))) = some (pad4str y ++ ' ' ::
        (pad2str hh ++ ':' :: (pad2str mi ++ ':' :: pad2str ss))) :=
      pSpaces_single _ (isPySpace_digitChar_mod (y / 1000))
    simp only [hsp2, pYear4_pad4 y _ hy2]
    have hsp3 : pSpaces (' ' :: (pad2str hh ++ ':' :: (pad2str mi ++ ':' ::
        pad2str ss))) = some (pad2str hh ++ ':' :: (pad2str mi ++ ':' ::
        pad2str ss)) :=
      pSpaces_single _ (isPySpace_digitChar_mod (hh / 10))
    simp only [hsp3]
    exact pNum2or1_pad2_success 0 23 0 9 hh _ _ (y, m, d) (by omega) hh2 (by omega)
      (by
        simp only [lit_cons_self]
        exact pNum2or1_pad2_success 0 59 0 9 mi _ _ (y, m, d) (by omega) hmi
          (by omega) (by
            simp only [lit_cons_self]
            exact pNum2or1_pad2_success 0 61 0 9 ss _ _ (y, m, d) (by omega)
              (by omega) (by omega) (by simp [hss]))))

theorem normalize_rfc_format (wd mn : List Char) (d m y hh mi ss tzv : ℕ)
    (sgn : Char) (hw : wd ∈ weekday_caps) (hmn : mn = month_caps.getD (m - 1) [])
    (hy1 : 1000 ≤ y) (hy2 : y ≤ 9999) (hm1 : 1 ≤ m) (hm2 : m ≤ 12)
    (hd1 : 1 ≤ d) (hd2 : d ≤ daysInMonth y m) (hh2 : hh ≤ 23) (hmi : mi ≤ 59)
    (hss : ss ≤ 59) (hsgn : sgn = '+' ∨ sgn = '-') :
    normalize_date (String.mk ((wd ++ ',' :: ' ' :: (pad2str d ++ ' ' :: (mn ++ ' ' ::
      (pad4str y ++ ' ' :: (pad2str hh ++ ':' :: (pad2str mi ++ ':' ::
        pad2str ss)))))) ++ ' ' :: sgn :: pad4str tzv)) =
      some (formatYMD y m d) := by
  have hd31 : d ≤ 31 := le_trans hd2 (daysInMonth_le_31 y m)
  have hy0 : 1 ≤ y := by omega
  have hwf : ∃ x1 x2 x3, wd = [x1, x2, x3] ∧ x1.isDigit = false ∧
      [x1.toLower, x2.toLower, x3.toLower] ∈ weekday_abbrevs := by
    fin_cases hw <;> exact ⟨_, _, _, rfl, by decide, by decide⟩
  obtain ⟨a, b, c, rfl, ha, hwl⟩ := hwf
  have hpm : ∀ rest : List Char, pMonthAbbrev (mn ++ rest) = some (m, rest) := by
    subst hmn
    interval_cases m <;> exact fun rest => rfl
  have hsp : ∀ X : List Char, pSpaces (' ' :: (mn ++ X)) = some (mn ++ X) := by
    subst hmn
    interval_cases m <;> exact fun X => rfl
  have hb : [a, b, c] ++ ',' :: ' ' :: (pad2str d ++ ' ' :: (mn ++ ' ' ::
      (pad4str y ++ ' ' :: (pad2str hh ++ ':' :: (pad2str mi ++ ':' ::
        pad2str ss))))) =
      ([a, b, c] ++ ',' :: ' ' :: (pad2str d ++ ' ' :: (mn ++ ' ' ::
      (pad4str y ++ ' ' :: (pad2str hh ++ ':' :: (pad2str mi ++ ':' ::
        [Nat.digitChar (ss / 10 % 10)])))))) ++ [Nat.digitChar (ss % 10)] := by
    simp [pad2str]
  have hstrip : stripTz (([a, b, c] ++ ',' :: ' ' :: (pad2str d ++ ' ' :: (mn ++
      ' ' :: (pad4str y ++ ' ' :: (pad2str hh ++ ':' :: (pad2str mi ++ ':' ::
        pad2str ss)))))) ++ ' ' :: sgn :: pad4str tzv) =
      [a, b, c] ++ ',' :: ' ' :: (pad2str d ++ ' ' :: (mn ++ ' ' ::
      (pad4str y ++ ' ' :: (pad2str hh ++ ':' :: (pad2str mi ++ ':' ::
        pad2str ss))))) := by
    rw [hb]
    exact stripTz_drop_tz _ _ (isPySpace_digitChar_mod ss) sgn hsgn _ _ _ _
      (isDigit_digitChar_mod (tzv / 1000)) (isDigit_digitChar_mod (tzv / 100))
      (isDigit_digitChar_mod (tzv / 10)) (isDigit_digitChar_mod tzv)
  rw [normalize_date_ne_nil (by simp)]
  unfold normalize_core
  have hf1 : parse_fmt_isoT (([a, b, c] ++ ',' :: ' ' :: (pad2str d ++ ' ' ::
      (mn ++ ' ' :: (pad4str y ++ ' ' :: (pad2str hh ++ ':' :: (pad2str mi ++
        ':' :: pad2str ss)))))) ++ ' ' :: sgn :: pad4str tzv) = none :=
    parse_isoT_of_pYear4_none (pYear4_head_nondigit _ ha)
  have hf2 : parse_fmt_iso (([a, b, c] ++ ',' :: ' ' :: (pad2str d ++ ' ' ::
      (mn ++ ' ' :: (pad4str y ++ ' ' :: (pad2str hh ++ ':' :: (pad2str mi ++
        ':' :: pad2str ss)))))) ++ ' ' :: sgn :: pad4str tzv) = none :=
    parse_iso_of_pYear4_none (pYear4_head_nondigit _ ha)
  have hf5 : parse_fmt_ymd_slash (([a, b, c] ++ ',' :: ' ' :: (pad2str d ++ ' ' ::
      (mn ++ ' ' :: (pad4str y ++ ' ' :: (pad2str hh ++ ':' :: (pad2str mi ++
        ':' :: pad2str ss)))))) ++ ' ' :: sgn :: pad4str tzv) = none :=
    parse_ymd_slash_of_pYear4_none (pYear4_head_nondigit _ ha)
  have hf3 : parse_fmt_dmy_slash (([a, b, c] ++ ',' :: ' ' :: (pad2str d ++ ' ' ::
      (mn ++ ' ' :: (pad4str y ++ ' ' :: (pad2str hh ++ ':' :: (pad2str mi ++
        ':' :: pad2str ss)))))) ++ ' ' :: sgn :: pad4str tzv) = none := by
    unfold parse_fmt_dmy_slash
    exact pNum2or1_head_nondigit 1 31 1 9 _ _ ha
  have hf4 : parse_fmt_dmy_dash (([a, b, c] ++ ',' :: ' ' :: (pad2str d ++ ' ' ::
      (mn ++ ' ' :: (pad4str y ++ ' ' :: (pad2str hh ++ ':' :: (pad2str mi ++
        ':' :: pad2str ss)))))) ++ ' ' :: sgn :: pad4str tzv) = none := by
    unfold parse_fmt_dmy_dash
    exact pNum2or1_head_nondigit 1 31 1 9 _ _ ha
  rw [hf1, hf2, hf3, hf4, hf5, hstrip,
    parse_rfc_render a b c mn d m y hh mi ss hwl hpm hsp hy2 hd1 hd31 hh2 hmi hss]
  simp [mkDate, hy0, hd1, hd2]

/-- C8: normalize_date maps ISO dates (with and without a time
part), DD/MM/YYYY, DD-MM-YYYY, YYYY/MM/DD and RFC 2822 email dates
(any weekday name, any month name, any timezone offset) to the
string YYYY-MM-DD; the three examples of the specification evaluate
as claimed; and the empty string and an unparseable input yield the
explicit absent value (the embedding is a total function, so no
exception is raised). -/
theorem C8_normalize_date_spec :
    normalize_date "2024-01-15T14:30" = some "2024-01-15"
    ∧ normalize_date "21/01/2024" = some "2024-01-21"
    ∧ normalize_date "Mon, 20 Jan 2024 10:30:00 +0200" = some "2024-01-20"
    ∧ normalize_date "" = none
    ∧ normalize_date "garbage" = none
    ∧ (∀ y m d hh mi : ℕ, 1000 ≤ y → y ≤ 9999 → 1 ≤ m → m ≤ 12 → 1 ≤ d →
        d ≤ daysInMonth y m → hh ≤ 23 → mi ≤ 59 →
        normalize_date (String.mk (pad4str y ++ '-' :: (pad2str m ++ '-' ::
          (pad2str d ++ 'T' :: (pad2str hh ++ ':' :: pad2str mi))))) =
          some (formatYMD y m d))
    ∧ (∀ y m d : ℕ, 1000 ≤ y → y ≤ 9999 → 1 ≤ m → m ≤ 12 → 1 ≤ d →
        d ≤ daysInMonth y m →
        normalize_date (String.mk (pad4str y ++ '-' :: (pad2str m ++ '-' ::
          pad2str d))) = some (formatYMD y m d))
    ∧ (∀ y m d : ℕ, 1000 ≤ y → y ≤ 9999 → 1 ≤ m → m ≤ 12 → 1 ≤ d →
        d ≤ daysInMonth y m →
        normalize_date (String.mk (pad2str d ++ '/' :: (pad2str m ++ '/' ::
          pad4str y))) = some (formatYMD y m d))
    ∧ (∀ y m d : ℕ, 1000 ≤ y → y ≤ 9999 → 1 ≤ m → m ≤ 12 → 1 ≤ d →
        d ≤ daysInMonth y m →
        normalize_date (String.mk (pad2str d ++ '-' :: (pad2str m ++ '-' ::
          pad4str y))) = some (formatYMD y m d))
    ∧ (∀ y m d : ℕ, 1000 ≤ y → y ≤ 9999 → 1 ≤ m → m ≤ 12 → 1 ≤ d →
        d ≤ daysInMonth y m →
        normalize_date (String.mk (pad4str y ++ '/' :: (pad2str m ++ '/' ::
          pad2str d))) = some (formatYMD y m d))
    ∧ (∀ (wd : List Char) (d m y hh mi ss tzv : ℕ) (sgn : Char),
        wd ∈ weekday_caps → 1000 ≤ y → y ≤ 9999 → 1 ≤ m → m ≤ 12 → 1 ≤ d →
        d ≤ daysInMonth y m → hh ≤ 23 → mi ≤ 59 → ss ≤ 59 →
        sgn = '+' ∨ sgn = '-' →
        normalize_date (String.mk ((wd ++ ',' :: ' ' :: (pad2str d ++ ' ' ::
          (month_caps.getD (m - 1) [] ++ ' ' :: (pad4str y ++ ' ' ::
          (pad2str hh ++ ':' :: (pad2str mi ++ ':' :: pad2str ss)))))) ++
          ' ' :: sgn :: pad4str tzv)) = some (formatYMD y m d)) := by
  refine ⟨by decide, by decide, by decide, by decide, by decide,
    ?_, ?_, ?_, ?_, ?_, ?_⟩
  · intro y m d hh mi h1 h2 h3 h4 h5 h6 h7 h8
    exact normalize_isoT_format y m d hh mi h1 h2 h3 h4 h5 h6 h7 h8
  · intro y m d h1 h2 h3 h4 h5 h6
    exact normalize_iso_format y m d h1 h2 h3 h4 h5 h6
  · intro y m d h1 h2 h3 h4 h5 h6
    exact normalize_dmy_slash_format y m d h1 h2 h3 h4 h5 h6
  · intro y m d h1 h2 h3 h4 h5 h6
    exact normalize_dmy_dash_format y m d h1 h2 h3 h4 h5 h6
  · intro y m d h1 h2 h3 h4 h5 h6
    exact normalize_ymd_slash_format y m d h1 h2 h3 h4 h5 h6
  · intro wd d m y hh mi ss tzv sgn hw h1 h2 h3 h4 h5 h6 h7 h8 h9 h10
    exact normalize_rfc_format wd _ d m y hh mi ss tzv sgn hw rfl
      h1 h2 h3 h4 h5 h6 h7 h8 h9 h10

/-- Witness for C8: the DD/MM/YYYY conjunct applied at 21/01/2024. -/
theorem C8_normalize_date_spec_witness :
    normalize_date (String.mk (pad2str 21 ++ '/' :: (pad2str 1 ++ '/' ::
      pad4str 2024))) = some (formatYMD 2024 1 21) := by
  exact C8_normalize_date_spec.2.2.2.2.2.2.2.1 2024 1 21
    (by decide) (by decide) (by decide) (by decide) (by decide) (by decide)

/- ------------------------------------------------------------------
C9: extract_from_file on data-level problems
(src/backend/app/services/extraction.py,
src/backend/app/parsers/rule_based/form_parser.py,
src/backend/app/models/extraction.py)

The FORM path with the rule-based extractor is embedded on the
parser output (a dict with the eight form fields): validation,
confidence scoring and the ExtractionRecord construction, whose
pydantic EmailStr field re-validates the email value and raises on
a format-invalid address.
------------------------------------------------------------------ -/

/-- The characters of the local part of the is_valid_email regex
([a-zA-Z0-9._%+-]). -/
def emailLocalChar (c : Char) : Bool :=
  c.isAlphanum || c = '.' || c = '_' || c = '%' || c = '+' || c = '-'

/-- The characters of the domain part of the is_valid_email regex
([a-zA-Z0-9.-]). -/
def emailDomainChar (c : Char) : Bool := c.isAlphanum || c = '.' || c = '-'

/-- is_valid_email (src/backend/app/parsers/utils.py): full match of
[a-zA-Z0-9._%+-]+@[a-zA-Z0-9.-]+\.[a-zA-Z]\x7b2,\x7d anchored on
both sides.  The local part is the maximal local-character prefix
(the at-sign is not a local character); the domain matches when some
dot splits it into a nonempty domain-character part and a final
purely-alphabetic part of length at least two. -/
def is_valid_email (s : String) : Bool :=
  let cs := s.data
  let lpart := cs.takeWhile emailLocalChar
  if lpart.isEmpty then false
  else
    match cs.drop lpart.length with
    | '@' :: rest =>
      (List.range rest.length).any (fun i =>
        rest.getD i ' ' = '.' && decide (0 < i) &&
          (rest.take i).all emailDomainChar &&
          (rest.drop (i + 1)).all Char.isAlpha &&
          decide (2 ≤ rest.length - (i + 1)))
    | _ => false

/-- is_valid_greek_phone (src/backend/app/parsers/utils.py):
whitespace, dashes and parentheses removed, an optional +30 or 0030
country prefix dropped, then exactly ten digits starting with 2
or 6. -/
def is_valid_greek_phone (s : String) : Bool :=
  let cleaned := s.data.filter
    (fun c => !(isPySpace c || c = '-' || c = '(' || c = ')'))
  let cleaned2 :=
    if cleaned.take 3 = ['+', '3', '0'] then cleaned.drop 3
    else if cleaned.take 4 = ['0', '0', '3', '0'] then cleaned.drop 4
    else cleaned
  match cleaned2 with
  | c :: rest =>
    (c = '2' || c = '6') && decide (rest.length = 9) && rest.all Char.isDigit
  | [] => false

/-- The parse output of RuleBasedFormParser (empty values cleaned
to None). -/
structure FormData : Type where
  client_name : Option String
  email : Option String
  phone : Option String
  company : Option String
  service_interest : Option String
  message : Option String
  date : Option String
  priority : Option String
deriving DecidableEq, Repr

/-- Truthiness of data.get(k) for the string fields. -/
def optTruthy (x : Option String) : Bool :=
  match x with
  | some s => s ≠ ""
  | none => false

/-- RuleBasedFormParser.validate: invalid email (error), invalid
Greek phone (warning), then the missing required fields client_name
and email (errors). -/
def rule_form_validate (d : FormData) : List ValidationWarning :=
  (if optTruthy d.email && !is_valid_email (d.email.getD "") then
    [⟨"email", "Invalid email format: " ++ d.email.getD "", "error"⟩]
  else []) ++
  (if optTruthy d.phone && !is_valid_greek_phone (d.phone.getD "") then
    [⟨"phone", "Invalid Greek phone format: " ++ d.phone.getD "", "warning"⟩]
  else []) ++
  (if !optTruthy d.client_name then
    [⟨"client_name", "Required field \x27client_name\x27 is missing", "error"⟩]
  else []) ++
  (if !optTruthy d.email then
    [⟨"email", "Required field \x27email\x27 is missing", "error"⟩]
  else [])

/-- The form fields as the extracted-data dict consumed by the
confidence calculation. -/
def formDataJson (d : FormData) : Json :=
  let f : Option String → PyVal := fun x =>
    match x with
    | some s => PyVal.vStr s
    | none => PyVal.vNone
  [("client_name", f d.client_name), ("email", f d.email), ("phone", f d.phone),
   ("company", f d.company), ("service_interest", f d.service_interest),
   ("message", f d.message), ("date", f d.date), ("priority", f d.priority)]

/-- No two adjacent dots. -/
def noDoubleDot : List Char → Bool
  | a :: b :: rest => !(a = '.' && b = '.') && noDoubleDot (b :: rest)
  | _ => true

/-- One DNS label of an email domain: nonempty, alphanumeric or
hyphen, no hyphen at either end. -/
def emailLabelOk (l : List Char) : Bool :=
  !l.isEmpty && l.all (fun c => c.isAlphanum || c = '-') &&
    !(l.headI = '-') && !(l.getLast? = some '-')

/-- Model of the validation pydantic performs for an EmailStr field
(the email-validator syntax check): exactly one at-sign; a nonempty
local part of the common characters without leading, trailing or
doubled dots; a domain of at least two nonempty labels.  Exotic
addresses accepted by the real validator but rejected here do not
occur in this development; the failing input below has no at-sign
and is rejected by any faithful model. -/
def pydanticEmailValid (s : String) : Bool :=
  let cs := s.data
  let lpart := cs.takeWhile (fun c => c ≠ '@')
  match cs.drop lpart.length with
  | '@' :: domain =>
    !lpart.isEmpty && lpart.all emailLocalChar && !(lpart.headI = '.') &&
      !(lpart.getLast? = some '.') && noDoubleDot lpart &&
      decide (2 ≤ (domain.splitOn '.').length) &&
      (domain.splitOn '.').all emailLabelOk
  | _ => false

/-- The record built by the FORM path of extract_from_file. -/
structure FormRecord : Type where
  confidence : ℚ
  warnings : List ValidationWarning
  fields : FormData
deriving DecidableEq, Repr

/-- The FORM path of ExtractionService.extract_from_file on the
rule-based parser output: validate, score, then construct the
ExtractionRecord - whose pydantic EmailStr field raises on a
format-invalid email value, which the scan loop counts as a failed
file. -/
def extract_from_parsed_form (d : FormData) : Except String FormRecord :=
  let warnings := rule_form_validate d
  let confidence := calculate_confidence (formDataJson d) none warnings
    RecordType.FORM
  match d.email with
  | some e =>
    if pydanticEmailValid e then Except.ok ⟨confidence, warnings, d⟩
    else Except.error "pydantic ValidationError: value is not a valid email address"
  | none => Except.ok ⟨confidence, warnings, d⟩

/-- C9 failing input: a parsed form with a format-invalid email.
The validator produces the intended error-severity warning, but the
record construction then raises instead of returning a record with
that warning folded into the confidence; a missing required field
(email absent), by contrast, flows through as claimed. -/
theorem C9_invalid_email_raises :
    (rule_form_validate ⟨some "Test User", some "invalid-email", none, none,
        none, none, none, none⟩).countP
      (fun w => decide (w.field = "email" ∧ w.severity = "error")) = 1
    ∧ extract_from_parsed_form ⟨some "Test User", some "invalid-email", none,
        none, none, none, none, none⟩ =
      Except.error "pydantic ValidationError: value is not a valid email address"
    ∧ extract_from_parsed_form ⟨some "Test User", none, none, none, none, none,
        none, none⟩ =
      Except.ok ⟨7/20,
        [⟨"email", "Required field \x27email\x27 is missing", "error"⟩],
        ⟨some "Test User", none, none, none, none, none, none, none⟩⟩ := by
  refine ⟨by decide, ?_, ?_⟩
  · unfold extract_from_parsed_form
    have hpe : pydanticEmailValid "invalid-email" = false := by decide
    simp [hpe]
  · have hw : rule_form_validate ⟨some "Test User", none, none, none, none, none,
        none, none⟩ =
        [⟨"email", "Required field \x27email\x27 is missing", "error"⟩] := by
      decide
    have he : errorCount
        [⟨"email", "Required field \x27email\x27 is missing", "error"⟩] = 1 := by
      decide
    have hw2 : warningCount
        [⟨"email", "Required field \x27email\x27 is missing", "error"⟩] = 0 := by
      decide
    have hc : calculate_confidence (formDataJson ⟨some "Test User", none, none,
        none, none, none, none, none⟩) none
        [⟨"email", "Required field \x27email\x27 is missing", "error"⟩]
        RecordType.FORM = 7/20 := by
      simp [calculate_confidence, pre_clamp_confidence, clamp01,
        calculate_completeness_confidence, required_fields_table, populatedField,
        formDataJson, alookup, he, hw2]
      norm_num [roundq, roundHalfEven]
    show Except.ok (⟨calculate_confidence (formDataJson ⟨some "Test User", none,
        none, none, none, none, none, none⟩) none
        (rule_form_validate ⟨some "Test User", none, none, none, none, none,
          none, none⟩) RecordType.FORM,
        rule_form_validate ⟨some "Test User", none, none, none, none, none,
          none, none⟩,
        ⟨some "Test User", none, none, none, none, none, none, none⟩⟩ :
        FormRecord) = _
    rw [hw, hc]
/- ------------------------------------------------------------------
C10: ExtractionService.scan_and_extract tallies
(src/backend/app/services/extraction.py,
src/backend/app/models/extraction.py)

Each discovered new file runs through the try-block of the scan
loop; the awaited steps that can raise partition the per-file
behaviour into four outcomes, which parametrise the fold below:
extraction raises (timeout or error), queue add raises, the
mark-file-processed call raises after a successful add, or the whole
body succeeds.
------------------------------------------------------------------ -/

inductive FileOutcome : Type where
  | extract_failed : FileOutcome
  | add_failed : FileOutcome
  | mark_failed : FileOutcome
  | ok : FileOutcome
deriving DecidableEq, Repr

/-- The running tallies of the scan loop (the ScanResult fields). -/
structure ScanTally : Type where
  processed_count : ℕ
  new_items_count : ℕ
  failed_count : ℕ
  errors : List String
deriving DecidableEq, Repr

/-- One iteration of the scan loop: an extraction or add failure is
caught and recorded; a failure of mark_file_processed happens after
new_items_count was already incremented and is also caught and
recorded; full success increments new_items_count and
processed_count. -/
def scanStep (acc : ScanTally) (o : FileOutcome) : ScanTally :=
  match o with
  | FileOutcome.extract_failed =>
    { acc with failed_count := acc.failed_count + 1,
               errors := acc.errors ++ ["Error processing file"] }
  | FileOutcome.add_failed =>
    { acc with failed_count := acc.failed_count + 1,
               errors := acc.errors ++ ["Error processing file"] }
  | FileOutcome.mark_failed =>
    { acc with new_items_count := acc.new_items_count + 1,
               failed_count := acc.failed_count + 1,
               errors := acc.errors ++ ["Error processing file"] }
  | FileOutcome.ok =>
    { acc with new_items_count := acc.new_items_count + 1,
               processed_count := acc.processed_count + 1 }

/-- scan_and_extract over the per-file outcomes of one scan. -/
def scan_and_extract_tally (outcomes : List FileOutcome) : ScanTally :=
  outcomes.foldl scanStep ⟨0, 0, 0, []⟩

theorem scanStep_foldl (l : List FileOutcome) (acc : ScanTally) :
    (l.foldl scanStep acc).processed_count =
      acc.processed_count + l.countP (fun o => decide (o = FileOutcome.ok))
    ∧ (l.foldl scanStep acc).failed_count =
      acc.failed_count + l.countP (fun o => decide (o ≠ FileOutcome.ok))
    ∧ (l.foldl scanStep acc).new_items_count =
      acc.new_items_count + l.countP (fun o => decide (o = FileOutcome.ok ∨
        o = FileOutcome.mark_failed))
    ∧ (l.foldl scanStep acc).errors.length =
      acc.errors.length + l.countP (fun o => decide (o ≠ FileOutcome.ok)) := by
  induction l generalizing acc with
  | nil => simp
  | cons o rest ih =>
    obtain ⟨ih1, ih2, ih3, ih4⟩ := ih (scanStep acc o)
    cases o <;>
      simp_all [scanStep, List.countP_cons] <;>
      omega

/-- C10: for every sequence of per-file outcomes, processed_count
plus failed_count equals the number of files processed by the scan,
the errors list has exactly failed_count entries, new_items_count is
at least processed_count and exceeds it by exactly the number of
files whose record was enqueued but whose mark-file-processed step
failed - so the two counts coincide exactly when no failure occurs
between enqueue and marking. -/
theorem C10_scan_result_tallies (outcomes : List FileOutcome) :
    (scan_and_extract_tally outcomes).processed_count +
        (scan_and_extract_tally outcomes).failed_count = outcomes.length
    ∧ (scan_and_extract_tally outcomes).errors.length =
        (scan_and_extract_tally outcomes).failed_count
    ∧ (scan_and_extract_tally outcomes).processed_count ≤
        (scan_and_extract_tally outcomes).new_items_count
    ∧ (scan_and_extract_tally outcomes).new_items_count =
        (scan_and_extract_tally outcomes).processed_count +
          outcomes.countP (fun o => decide (o = FileOutcome.mark_failed))
    ∧ (outcomes.countP (fun o => decide (o = FileOutcome.mark_failed)) = 0 →
        (scan_and_extract_tally outcomes).new_items_count =
          (scan_and_extract_tally outcomes).processed_count) := by
  have hsplit : outcomes.countP (fun o => decide (o = FileOutcome.ok)) +
      outcomes.countP (fun o => decide (o ≠ FileOutcome.ok)) = outcomes.length := by
    induction outcomes with
    | nil => simp
    | cons o rest ih =>
      cases o <;> simp_all [List.countP_cons] <;> omega
  have hmix : outcomes.countP (fun o => decide (o = FileOutcome.ok ∨
      o = FileOutcome.mark_failed)) =
      outcomes.countP (fun o => decide (o = FileOutcome.ok)) +
        outcomes.countP (fun o => decide (o = FileOutcome.mark_failed)) := by
    clear hsplit
    induction outcomes with
    | nil => simp
    | cons o rest ih =>
      cases o <;> simp_all [List.countP_cons] <;> omega
  obtain ⟨h1, h2, h3, h4⟩ := scanStep_foldl outcomes ⟨0, 0, 0, []⟩
  simp only [List.length_nil, Nat.zero_add] at h1 h2 h3 h4
  unfold scan_and_extract_tally
  refine ⟨by omega, by omega, by omega, by omega, by omega⟩

/-- Witness for C10 at a concrete scan of three files (two succeed,
one extraction fails): no failure between enqueue and marking, so
new_items_count equals processed_count, and the counts add up to the
number of files. -/
theorem C10_scan_result_tallies_witness :
    (scan_and_extract_tally [FileOutcome.ok, FileOutcome.extract_failed,
        FileOutcome.ok]).new_items_count =
      (scan_and_extract_tally [FileOutcome.ok, FileOutcome.extract_failed,
        FileOutcome.ok]).processed_count
    ∧ (scan_and_extract_tally [FileOutcome.ok, FileOutcome.extract_failed,
        FileOutcome.ok]).processed_count +
      (scan_and_extract_tally [FileOutcome.ok, FileOutcome.extract_failed,
        FileOutcome.ok]).failed_count = 3 := by
  have h := C10_scan_result_tallies
    [FileOutcome.ok, FileOutcome.extract_failed, FileOutcome.ok]
  exact ⟨h.2.2.2.2 (by decide), h.1⟩
